import Mathlib

/-!
Verification development for the CoherencePLM generation pipeline.

The definitions below are a shallow embedding of the backend's core
operations (`backend/nodes.py`, `backend/tools/tools.py` and the project
routes).  External calls to the text-generation service are modelled as
explicit oracle values (a single `Except Unit String`, or a stream of them
for the multi-call routes): `.error` stands for the call raising
(timeout/transport/quota), `.ok raw` for the call returning the raw text.
The Neo4j graph is modelled as lists of property nodes and edges with
Cypher `MERGE` semantics (match-on-all-listed-properties or create).
-/

set_option autoImplicit false

namespace CoherencePLM

/-! ### Python-style string and list primitives -/

/-- The characters matched by Python's `\s` regex class and `str.strip()`. -/
def pyIsSpace (c : Char) : Bool :=
  c = ' ' ∨ c = '\t' ∨ c = '\n' ∨ c = '\r' ∨ c = '\x0b' ∨ c = '\x0c'

/-- `str.strip(chars)` generalised: drop characters satisfying `p` from both ends. -/
def pyStripBy (p : Char → Bool) (s : String) : String :=
  ⟨((s.data.dropWhile p).reverse.dropWhile p).reverse⟩

/-- Python `str.strip()` (whitespace from both ends). -/
def pyStrip (s : String) : String := pyStripBy pyIsSpace s

/-- Python `str.strip(c)` for a single character `c`. -/
def pyStripChar (s : String) (c : Char) : String := pyStripBy (· = c) s

/-- Resolve a Python sequence index (negative indexing allowed); `none` is
`IndexError`. -/
def pyIdx (len : Nat) (i : Int) : Option Nat :=
  if 0 ≤ i then
    if i < (len : Int) then some i.toNat else none
  else
    let j := (len : Int) + i
    if 0 ≤ j then some j.toNat else none

/-- Python `l[i]` with negative indexing; `none` is `IndexError`. -/
def pyGet {α : Type} (l : List α) (i : Int) : Option α :=
  (pyIdx l.length i).bind fun j => l[j]?

/-- Python `l[i] = a` with negative indexing; `none` is `IndexError`. -/
def pySet {α : Type} (l : List α) (i : Int) (a : α) : Option (List α) :=
  (pyIdx l.length i).map fun j => l.set j a

/-- First index at which `needle` occurs in `hay` (Python `str.find` on success). -/
def findSubstr (needle : List Char) : List Char → Option Nat
  | [] => if needle.isEmpty then some 0 else none
  | c :: cs =>
    if needle.isPrefixOf (c :: cs) then some 0
    else (findSubstr needle cs).map (· + 1)

/-- Python `c in s` for a single character. -/
def strHasChar (s : String) (c : Char) : Bool := s.data.contains c

/-- Python `needle in hay` for strings. -/
def strHasSubstr (hay needle : String) : Bool := (findSubstr needle.data hay.data).isSome

/-- Python `s.find(c)` (first index, `none` for -1). -/
def pyFind (s : String) (c : Char) : Option Nat := s.data.findIdx? (· = c)

/-- Python `s.rfind(c)` (last index, `none` for -1). -/
def pyRFind (s : String) (c : Char) : Option Nat :=
  (s.data.reverse.findIdx? (· = c)).map fun k => s.data.length - 1 - k

/-- Python `s[a:b]` for `0 ≤ a ≤ b`. -/
def pySlice (s : String) (a b : Nat) : String := ⟨(s.data.drop a).take (b - a)⟩

/-- Python `s.startswith(c)` for a single character. -/
def pyStartsWith (s : String) (c : Char) : Bool :=
  match s.data with
  | [] => false
  | d :: _ => d = c

/-- Python `s.endswith(c)` for a single character. -/
def pyEndsWith (s : String) (c : Char) : Bool :=
  match s.data.reverse with
  | [] => false
  | d :: _ => d = c

/-- Python `s[:n]` (`take`). -/
def pyTake (s : String) (n : Nat) : String := ⟨s.data.take n⟩

/-! ### JSON values and a strict parser (model of `json.loads`) -/

inductive Json where
  | null
  | bool (b : Bool)
  | num (raw : String)
  | str (s : String)
  | arr (xs : List Json)
  | obj (kvs : List (String × Json))

/-- JSON structural whitespace accepted by `json.loads`. -/
def jskipWs (cs : List Char) : List Char :=
  cs.dropWhile fun c => c = ' ' ∨ c = '\t' ∨ c = '\n' ∨ c = '\r'

def hexVal (c : Char) : Option Nat :=
  if '0' ≤ c ∧ c ≤ '9' then some (c.toNat - '0'.toNat)
  else if 'a' ≤ c ∧ c ≤ 'f' then some (c.toNat - 'a'.toNat + 10)
  else if 'A' ≤ c ∧ c ≤ 'F' then some (c.toNat - 'A'.toNat + 10)
  else none

/-- Parse the body of a JSON string literal (after the opening quote). -/
def parseStringBody : List Char → Option (List Char × List Char)
  | [] => none
  | '"' :: rest => some ([], rest)
  | '\\' :: rest =>
    match rest with
    | '"' :: r => (parseStringBody r).map fun (s, t) => ('"' :: s, t)
    | '\\' :: r => (parseStringBody r).map fun (s, t) => ('\\' :: s, t)
    | '/' :: r => (parseStringBody r).map fun (s, t) => ('/' :: s, t)
    | 'b' :: r => (parseStringBody r).map fun (s, t) => ('\x08' :: s, t)
    | 'f' :: r => (parseStringBody r).map fun (s, t) => ('\x0c' :: s, t)
    | 'n' :: r => (parseStringBody r).map fun (s, t) => ('\n' :: s, t)
    | 'r' :: r => (parseStringBody r).map fun (s, t) => ('\r' :: s, t)
    | 't' :: r => (parseStringBody r).map fun (s, t) => ('\t' :: s, t)
    | 'u' :: h1 :: h2 :: h3 :: h4 :: r =>
      match hexVal h1, hexVal h2, hexVal h3, hexVal h4 with
      | some a, some b, some c, some d =>
        let n := ((a * 16 + b) * 16 + c) * 16 + d
        if n.isValidChar then
          (parseStringBody r).map fun (s, t) => (Char.ofNat n :: s, t)
        else none
      | _, _, _, _ => none
    | _ => none
  | c :: rest =>
    if c.toNat < 32 then none
    else (parseStringBody rest).map fun (s, t) => (c :: s, t)

def isDigit (c : Char) : Bool := '0' ≤ c ∧ c ≤ '9'

/-- Parse a JSON number token, returning its raw text. -/
def parseNumber (cs : List Char) : Option (String × List Char) :=
  let (sign, cs1) :=
    match cs with
    | '-' :: r => (['-'], r)
    | _ => (([] : List Char), cs)
  match cs1 with
  | [] => none
  | d :: _ =>
    if ¬ isDigit d then none
    else
      let intPart := cs1.takeWhile isDigit
      let cs2 := cs1.dropWhile isDigit
      -- json.loads rejects leading zeros like 01
      if intPart.length > 1 ∧ intPart.headI = '0' then none
      else
        let (fracPart, cs3) :=
          match cs2 with
          | '.' :: r =>
            let ds := r.takeWhile isDigit
            if ds.isEmpty then (([] : List Char), cs2)
            else ('.' :: ds, r.dropWhile isDigit)
          | _ => (([] : List Char), cs2)
        if cs3 ≠ cs2 ∨ fracPart.isEmpty then
          -- either we consumed a fraction or there was none; now the exponent
          let (expPart, cs4) :=
            match cs3 with
            | e :: r =>
              if e = 'e' ∨ e = 'E' then
                let (es, r1) :=
                  match r with
                  | s :: r2 => if s = '+' ∨ s = '-' then ([e, s], r2) else ([e], r)
                  | [] => ([e], r)
                let ds := r1.takeWhile isDigit
                if ds.isEmpty then (([] : List Char), cs3)
                else (es ++ ds, r1.dropWhile isDigit)
              else (([] : List Char), cs3)
            | [] => (([] : List Char), cs3)
          some (⟨sign ++ intPart ++ fracPart ++ expPart⟩, cs4)
        else none

mutual

/-- Parse one JSON value at the head of the input (no leading whitespace). -/
def parseValue : Nat → List Char → Option (Json × List Char)
  | 0, _ => none
  | fuel + 1, cs =>
    match cs with
    | '{' :: rest =>
      (match jskipWs rest with
       | '}' :: rest1 => some (.obj [], rest1)
       | r => (parseMembers fuel r).map fun (kvs, t) => (.obj kvs, t))
    | '[' :: rest =>
      (match jskipWs rest with
       | ']' :: rest1 => some (.arr [], rest1)
       | r => (parseElems fuel r).map fun (xs, t) => (.arr xs, t))
    | '"' :: rest => (parseStringBody rest).map fun (s, t) => (.str ⟨s⟩, t)
    | _ =>
      if "true".data.isPrefixOf cs then some (.bool true, cs.drop 4)
      else if "false".data.isPrefixOf cs then some (.bool false, cs.drop 5)
      else if "null".data.isPrefixOf cs then some (.null, cs.drop 4)
      else if "NaN".data.isPrefixOf cs then some (.num "NaN", cs.drop 3)
      else if "Infinity".data.isPrefixOf cs then some (.num "Infinity", cs.drop 8)
      else if "-Infinity".data.isPrefixOf cs then some (.num "-Infinity", cs.drop 9)
      else (parseNumber cs).map fun (n, t) => (.num n, t)

/-- Parse the elements of a non-empty JSON array (input starts at the first
element, whitespace already skipped). -/
def parseElems : Nat → List Char → Option (List Json × List Char)
  | 0, _ => none
  | fuel + 1, cs => do
    let (v, rest) ← parseValue fuel cs
    match jskipWs rest with
    | ',' :: rest1 =>
      let (xs, t) ← parseElems fuel (jskipWs rest1)
      pure (v :: xs, t)
    | ']' :: rest1 => pure ([v], rest1)
    | _ => none

/-- Parse the members of a non-empty JSON object (input starts at the first
key, whitespace already skipped). -/
def parseMembers : Nat → List Char → Option (List (String × Json) × List Char)
  | 0, _ => none
  | fuel + 1, cs => do
    match cs with
    | '"' :: rest => do
      let (k, rest1) ← parseStringBody rest
      match jskipWs rest1 with
      | ':' :: rest2 => do
        let (v, rest3) ← parseValue fuel (jskipWs rest2)
        match jskipWs rest3 with
        | ',' :: rest4 =>
          let (kvs, t) ← parseMembers fuel (jskipWs rest4)
          pure ((⟨k⟩, v) :: kvs, t)
        | '}' :: rest4 => pure ([(⟨k⟩, v)], rest4)
        | _ => none
      | _ => none
    | _ => none

end

/-- Model of `json.loads`: strict parse of a complete JSON document. -/
def jsonLoads (s : String) : Option Json :=
  let cs := jskipWs s.data
  match parseValue (cs.length + 1) cs with
  | some (v, rest) => if jskipWs rest = [] then some v else none
  | none => none

/-- One left-to-right pass of `re.sub(r',\s*X', 'X', s)` for a closing
bracket `X` (the regex never rescans replaced text).  The fuel argument is
only a totality device; `fuel = cs.length` always suffices because every
step consumes at least one character. -/
def reSubAux (close : Char) : Nat → List Char → List Char
  | 0, cs => cs
  | _, [] => []
  | fuel + 1, c :: rest =>
    if c = ',' then
      match rest.dropWhile pyIsSpace with
      | d :: rest1 =>
        if d = close then close :: reSubAux close fuel rest1
        else ',' :: reSubAux close fuel rest
      | [] => ',' :: reSubAux close fuel rest
    else c :: reSubAux close fuel rest

def reSubCommaClose (close : Char) (cs : List Char) : List Char :=
  reSubAux close cs.length cs

/-- `safe_json_parse` from `backend/nodes.py` (default `None`): strict parse,
then one retry after stripping trailing commas before closing brackets. -/
def safe_json_parse (json_str : String) : Option Json :=
  match jsonLoads json_str with
  | some v => some v
  | none =>
    let s1 : String := ⟨reSubCommaClose '}' json_str.data⟩
    let s2 : String := ⟨reSubCommaClose ']' s1.data⟩
    jsonLoads s2

/-- `extract_json_from_text` from `backend/nodes.py`: prefer a fenced
```json block, then the first-`\x7b`-to-last-`\x7d` object slice, then the
first-`[`-to-last-`]` array slice. -/
def extract_json_from_text (text : String) : Option String :=
  let fenced : Option String :=
    match findSubstr "```json".data text.data with
    | some i =>
      let afterTag := text.data.drop (i + 7)
      match findSubstr "```".data afterTag with
      | some j => some (pyStrip ⟨afterTag.take j⟩)
      | none => none
    | none => none
  match fenced with
  | some s => some s
  | none =>
    let objSlice : Option String :=
      if strHasChar text '{' ∧ strHasChar text '}' then
        match pyFind text '{', pyRFind text '}' with
        | some s, some e => if e + 1 > s then some (pySlice text s (e + 1)) else none
        | _, _ => none
      else none
    match objSlice with
    | some s => some s
    | none =>
      if strHasChar text '[' ∧ strHasChar text ']' then
        match pyFind text '[', pyRFind text ']' with
        | some s, some e => if e + 1 > s then some (pySlice text s (e + 1)) else none
        | _, _ => none
      else none

/-! ### Generation stages (`backend/nodes.py`)

A call to the external generator is an oracle value `Except Unit String`:
`.error ()` models the call raising (timeout, transport failure, quota),
`.ok raw` models it returning the raw response text.  Multi-call routes
consume a stream of such values in call order.  A Python exception
propagating out of a function is `.error ()` in the function's result. -/

abbrev GenResult := Except Unit String

abbrev GenStream := List GenResult

/-- Draw the next generator response; an exhausted stream behaves like a
failing call. -/
def nextGen : GenStream → GenResult × GenStream
  | [] => (.error (), [])
  | g :: rest => (g, rest)

/-- Pydantic `List[str]` validation: every element must already be a JSON
string (pydantic v2 does not coerce). -/
def asStrList : List Json → Option (List String)
  | [] => some []
  | .str s :: rest => (asStrList rest).map (s :: ·)
  | _ => none

/-- Python dict built by `json.loads`: a duplicated key keeps the last value. -/
def lookupLast (kvs : List (String × Json)) (k : String) : Option Json :=
  (kvs.filter (·.1 = k)).getLast?.map (·.2)

/-- Shared parse step of the stage operations: extract JSON from the raw
text, else try the raw text directly when it is bracketed by the stage's
expected delimiters, else raise `ValueError`. -/
def stageParse (content : String) (openC closeC : Char) : Except Unit (Option Json) :=
  match extract_json_from_text content with
  | some js => .ok (safe_json_parse js)
  | none =>
    if pyStartsWith content openC ∧ pyEndsWith content closeC then
      .ok (safe_json_parse content)
    else .error ()

/-- The hard-coded fallback keyword list in `generate_keywords`. -/
def fallback_keywords : List String :=
  ["advanced safety features",
   "fuel efficient engines",
   "comfortable interior design",
   "advanced technology integration",
   "reliable performance standards"]

/-- The templated fallback requirements in `generate_requirements`. -/
def fallback_requirements (selected_keyword : String) : List String :=
  ["The system shall implement " ++ selected_keyword ++ " for optimal performance",
   "The design shall incorporate " ++ selected_keyword ++ " for user satisfaction",
   "The product shall maintain " ++ selected_keyword ++ " throughout its lifecycle",
   "The implementation shall ensure " ++ selected_keyword ++ " meets industry standards",
   "The solution shall provide " ++ selected_keyword ++ " with minimal maintenance"]

/-- `generate_fallback_risks`: one templated risk per requirement, padded
with generic risks while shorter than 5, then truncated to exactly 5. -/
def generate_fallback_risks (requirements : List String) : List String :=
  let base := requirements.map fun req =>
    "Potential challenges in implementing: " ++ pyTake req 60 ++ "..."
  let padded := base ++ (List.range (5 - base.length)).map fun k =>
    "General implementation risk for requirement " ++ toString (base.length + k + 1)
  padded.take 5

/-- Validation step shared by the array-shaped stages: a parsed 5-element
array goes through pydantic `List[str]` validation; anything else takes the
in-`try` fallback. -/
def validateArrStage (parsed : Option Json) (fallback : List String) :
    Except Unit (List String) :=
  match parsed with
  | some (.arr xs) =>
    if xs.length = 5 then
      match asStrList xs with
      | some ks => .ok ks               -- pydantic model accepts
      | none => .error ()               -- pydantic ValidationError
    else .ok fallback                   -- wrong cardinality: in-try fallback
  | _ => .ok fallback                   -- parse failure / falsy / not a list

def generate_keywords (g : GenResult) : Except Unit (List String) :=
  let body : Except Unit (List String) :=
    match g with
    | .error e => .error e              -- the generator call raised
    | .ok raw =>
      let content := pyStrip raw
      match stageParse content '[' ']' with
      | .error e => .error e            -- ValueError: no valid JSON found
      | .ok parsed => validateArrStage parsed fallback_keywords
  match body with
  | .ok ks => .ok ks
  | .error _ => .ok fallback_keywords   -- except branch

/-- `generate_requirements` (same shape as `generate_keywords`, templated
fallback from the selected keyword). -/
def generate_requirements (selected_keyword : String) (g : GenResult) :
    Except Unit (List String) :=
  let body : Except Unit (List String) :=
    match g with
    | .error e => .error e
    | .ok raw =>
      let content := pyStrip raw
      match stageParse content '[' ']' with
      | .error e => .error e
      | .ok parsed => validateArrStage parsed (fallback_requirements selected_keyword)
  match body with
  | .ok rs => .ok rs
  | .error _ => .ok (fallback_requirements selected_keyword)

/-- `generate_risks`: expects an object with a `"Risks"` key; any shape or
parse failure falls back to `generate_fallback_risks`.  The embedding takes
the requirement list directly (the node reads
`state["requirements_output"].requirements` before invoking the
generator; states with no requirements never reach the generator). -/
def generate_risks (requirements : List String) (g : GenResult) :
    Except Unit (List String) :=
  let body : Except Unit (List String) :=
    match g with
    | .error e => .error e
    | .ok raw =>
      let content := pyStrip raw
      match stageParse content '{' '}' with
      | .error e => .error e
      | .ok parsed =>
        let risksVal : Option Json :=
          match parsed with
          | some (.obj kvs) => lookupLast kvs "Risks"
          | _ => none                   -- falsy / not a dict → risks = []
        validateArrStage risksVal (generate_fallback_risks requirements)
  match body with
  | .ok rs => .ok rs
  | .error _ => .ok (generate_fallback_risks requirements)

/-- The response cleaning in the single-item regenerators:
`content.strip().strip(quote).strip(apostrophe).strip()`. -/
def pyCleanQuoted (raw : String) : String :=
  pyStrip (pyStripChar (pyStripChar (pyStrip raw) '"') '\'')

/-- The value a single-item regeneration resolves to for one generator
response: the cleaned response when long enough, else the current item
(also on a failed call). -/
def resolveSingle (g : GenResult) (current : String) : String :=
  match g with
  | .error _ => current
  | .ok raw =>
    let cleaned := pyCleanQuoted raw
    if cleaned.length < 10 then current else cleaned

/-- `generate_single_requirement_with_feedback`: returns the cleaned
response when it is long enough, else the original item; a generator
failure also returns the original.  An `IndexError` reading the current
item (index < -len) re-raises out of the `except` branch.  The oracle is
consumed only when the generator is actually invoked. -/
def generate_single_requirement_with_feedback (requirements : List String)
    (index : Int) (o : GenStream) : Except Unit String × GenStream :=
  let cur? : Option String :=
    if index < (requirements.length : Int) then pyGet requirements index else some ""
  match cur? with
  | none => (.error (), o)
  | some current =>
    let (g, rest) := nextGen o
    match g with
    | .error _ => (.ok current, rest)
    | .ok raw =>
      let cleaned := pyCleanQuoted raw
      if cleaned.length < 10 then (.ok current, rest) else (.ok cleaned, rest)

/-- `generate_single_risk_with_feedback`: like the requirement variant but
also reads the paired requirement for the prompt; an error reading the
paired requirement (missing requirements list, or index < -len) is caught
and returns the original risk without invoking the generator. -/
def generate_single_risk_with_feedback (risks : List String)
    (requirements : Option (List String)) (index : Int) (o : GenStream) :
    Except Unit String × GenStream :=
  let curRisk? : Option String :=
    if index < (risks.length : Int) then pyGet risks index else some ""
  match curRisk? with
  | none => (.error (), o)
  | some currentRisk =>
    let curReq? : Option String :=
      match requirements with
      | none => none                    -- AttributeError on .requirements
      | some reqs =>
        if index < (reqs.length : Int) then pyGet reqs index else some ""
    match curReq? with
    | none => (.ok currentRisk, o)      -- caught; original risk, no LLM call
    | some _ =>
      let (g, rest) := nextGen o
      match g with
      | .error _ => (.ok currentRisk, rest)
      | .ok raw =>
        let cleaned := pyCleanQuoted raw
        if cleaned.length < 10 then (.ok currentRisk, rest) else (.ok cleaned, rest)

/-! ### Pipeline state and the project routes

`PState` carries the fields of the workflow state that the verified
operations read or write; fields the claims never touch (`messages`,
`keyword_output`, `project_name`, `regenerate_flag`, the history log) are
omitted.  `none` models a missing/`None` output. -/

structure PState where
  requirement_description : String
  selected_keyword : Option String
  requirements : Option (List String)
  risks : Option (List String)
  deriving Repr, DecidableEq

inductive RouteErr where
  | badRequest (detail : String)      -- HTTPException 400
  | internal                          -- unexpected exception → HTTP 500
  deriving Repr, DecidableEq

/-- Python truthiness of an optional string (`None` and `""` are falsy). -/
def truthyOptStr : Option String → Bool
  | none => false
  | some s => s ≠ ""

/-- The selected keyword as it appears in an f-string prompt (`None` renders
as the text `"None"`). -/
def kwStr (st : PState) : String := st.selected_keyword.getD "None"

/-- The `generate_requirements` node as a state transformer. -/
def generateRequirementsNode (st : PState) (g : GenResult) : Except Unit PState :=
  match generate_requirements (kwStr st) g with
  | .ok rs => .ok {st with requirements := some rs}
  | .error e => .error e

/-- The `generate_risks` node as a state transformer; with no requirements
present the node raises (`AttributeError` both in the `try` body and again
in the `except` handler). -/
def generateRisksNode (st : PState) (g : GenResult) : Except Unit PState :=
  match st.requirements with
  | none => .error ()
  | some reqs =>
    match generate_risks reqs g with
    | .ok rs => .ok {st with risks := some rs}
    | .error e => .error e

/-- The commit loop of the selective-regeneration routes: for each
requested index inside both lists, overwrite `cur[idx]` with `new[idx]`;
`none` models an uncaught `IndexError` (very negative index). -/
def commitSelective (new : List String) : List Int → List String → Option (List String)
  | [], cur => some cur
  | idx :: rest, cur =>
    if idx < (cur.length : Int) ∧ idx < (new.length : Int) then
      match pyGet new idx with
      | none => none
      | some v =>
        match pySet cur idx v with
        | none => none
        | some cur' => commitSelective new rest cur'
    else commitSelective new rest cur

/-- `POST /regenerate-requirements`: run the whole-stage generator once,
commit only the requested indexes into the pre-call list. -/
def regenerate_requirements (st : PState) (requirement_indexes : List Int)
    (g : GenResult) : Except RouteErr PState :=
  if ¬ truthyOptStr st.selected_keyword then .error (.badRequest "No keyword selected")
  else
    match st.requirements with
    | none => .error (.badRequest "No requirements available")
    | some current =>
      match generateRequirementsNode st g with
      | .error _ => .error .internal
      | .ok st1 =>
        let newReqs := st1.requirements.getD []
        match commitSelective newReqs requirement_indexes current with
        | none => .error .internal
        | some merged => .ok {st1 with requirements := some merged}

/-- `POST /regenerate-risks`: same pattern on the risks list. -/
def regenerate_risks (st : PState) (risk_indexes : List Int) (g : GenResult) :
    Except RouteErr PState :=
  if ¬ truthyOptStr st.selected_keyword then .error (.badRequest "No keyword selected")
  else
    match st.risks with
    | none => .error (.badRequest "No risks available")
    | some current =>
      match generateRisksNode st g with
      | .error _ => .error .internal
      | .ok st1 =>
        let newRisks := st1.risks.getD []
        match commitSelective newRisks risk_indexes current with
        | none => .error .internal
        | some merged => .ok {st1 with risks := some merged}

/-- Requirement phase of `regenerate-with-feedback`: for each in-range
index, call the single-item regenerator against the pre-call list and
commit into the working copy when the result is truthy and differs; errors
of one index are logged and skipped. -/
def feedbackReqPhase (origReqs : List String) :
    List Int → List String → List Int → GenStream → List String × List Int × GenStream
  | [], cur, upd, o => (cur, upd, o)
  | idx :: rest, cur, upd, o =>
    if idx < (cur.length : Int) then
      let (r, o') := generate_single_requirement_with_feedback origReqs idx o
      match r with
      | .error _ => feedbackReqPhase origReqs rest cur upd o'
      | .ok updated =>
        match pyGet cur idx with
        | none => feedbackReqPhase origReqs rest cur upd o'
        | some curVal =>
          if updated ≠ "" ∧ updated ≠ curVal then
            match pySet cur idx updated with
            | some cur' => feedbackReqPhase origReqs rest cur' (upd ++ [idx]) o'
            | none => feedbackReqPhase origReqs rest cur upd o'
          else feedbackReqPhase origReqs rest cur upd o'
    else feedbackReqPhase origReqs rest cur upd o

/-- Risk phase of `regenerate-with-feedback`: one single-risk regeneration
attempt per listed in-range index (recorded in the attempts trace), reading
the pre-call risks and committing into the working copy. -/
def feedbackRiskPhase (origRisks : List String) (reqsNow : Option (List String)) :
    List Int → List String → List Int → GenStream → List String × List Int × GenStream
  | [], curR, att, o => (curR, att, o)
  | idx :: rest, curR, att, o =>
    if idx < (curR.length : Int) then
      let (r, o') := generate_single_risk_with_feedback origRisks reqsNow idx o
      let att' := att ++ [idx]
      match r with
      | .error _ => feedbackRiskPhase origRisks reqsNow rest curR att' o'
      | .ok updated =>
        match pyGet curR idx with
        | none => feedbackRiskPhase origRisks reqsNow rest curR att' o'
        | some curVal =>
          if updated ≠ "" ∧ updated ≠ curVal then
            match pySet curR idx updated with
            | some curR' => feedbackRiskPhase origRisks reqsNow rest curR' att' o'
            | none => feedbackRiskPhase origRisks reqsNow rest curR att' o'
          else feedbackRiskPhase origRisks reqsNow rest curR att' o'
    else feedbackRiskPhase origRisks reqsNow rest curR att o

/-- Observable outcome of `regenerate-with-feedback`: the final state, the
indexes whose requirement was committed, the indexes at which a single-risk
regeneration was attempted, and the unconsumed oracle stream. -/
structure FeedbackResult where
  state : PState
  updatedRequirementIndexes : List Int
  riskAttempts : List Int
  rest : GenStream

/-- The keyword fallback at the top of `regenerate-with-feedback`: a falsy
`selected_keyword` is replaced by the thread id. -/
def kwFallback (st0 : PState) (threadId : String) : PState :=
  if truthyOptStr st0.selected_keyword then st0
  else {st0 with selected_keyword := some threadId}

/-- `POST /regenerate-with-feedback`.  The final logging line of the route
dereferences both outputs unconditionally, so a missing list at that point
is an uncaught `AttributeError` (HTTP 500). -/
def regenerate_with_feedback (st0 : PState) (threadId : String)
    (regenerate_type : String) (indexes : List Int) (_feedback : String)
    (o : GenStream) : Except RouteErr FeedbackResult :=
  let st := kwFallback st0 threadId
  if regenerate_type = "requirement" then
    match st.requirements with
    | none => .error (.badRequest "No requirements available")
    | some origReqs =>
      let origRisks := st.risks.getD []
      let (cur, upd, o1) := feedbackReqPhase origReqs indexes origReqs [] o
      let st1 := {st with requirements := some cur}
      if upd ≠ [] then
        let (curR, att, o2) := feedbackRiskPhase origRisks st1.requirements upd origRisks [] o1
        match st.risks with
        | none => .error .internal
        | some _ => .ok ⟨{st1 with risks := some curR}, upd, att, o2⟩
      else
        match st1.risks with
        | none => .error .internal
        | some _ => .ok ⟨st1, upd, [], o1⟩
  else if regenerate_type = "risks" then
    match st.risks with
    | none => .error (.badRequest "No risks available")
    | some origRisks =>
      let (curR, att, o1) := feedbackRiskPhase origRisks st.requirements indexes origRisks [] o
      let st1 := {st with risks := some curR}
      match st1.requirements with
      | none => .error .internal
      | some _ => .ok ⟨st1, [], att, o1⟩
  else
    match st.requirements, st.risks with
    | some _, some _ => .ok ⟨st, [], [], o⟩
    | _, _ => .error .internal

/-- `POST /update-item`: manual overwrite of one requirement or risk; for a
requirement with `update_related` and risks present, the whole-stage
`generate_risks` node is re-run. -/
def update_item (st : PState) (ty : String) (index : Int) (new_content : String)
    (update_related : Bool) (g : GenResult) : Except RouteErr PState :=
  if ty = "requirement" then
    match st.requirements with
    | none => .error (.badRequest "Invalid requirement index")
    | some reqs =>
      if (reqs.length : Int) ≤ index then .error (.badRequest "Invalid requirement index")
      else
        match pySet reqs index new_content with
        | none => .error .internal
        | some reqs' =>
          let st1 := {st with requirements := some reqs'}
          if update_related ∧ st.risks.isSome then
            match generateRisksNode st1 g with
            | .ok st2 => .ok st2
            | .error _ => .error .internal
          else .ok st1
  else if ty = "risk" then
    match st.risks with
    | none => .error (.badRequest "Invalid risk index")
    | some rs =>
      if (rs.length : Int) ≤ index then .error (.badRequest "Invalid risk index")
      else
        match pySet rs index new_content with
        | none => .error .internal
        | some rs' => .ok {st with risks := some rs'}
  else .ok st

/-! ### Persisted graph (`backend/tools/tools.py`,
`backend/api/routes/project/neo4j_operations.py`)

Nodes are property records; a Cypher `MERGE (n:L {props})` matches a node
whose listed properties all coincide, else creates one.  The `Requirement`
and `Risk` merges list all three properties (`description`, `project`,
`index`), so those node lists never hold duplicates and a node is
identified by its full record.  `Project` is merged on `name` alone and its
`keyword` / `updated_at` are then `SET`; `updated_at = datetime()` is
modelled by an explicit save-time parameter. -/

structure ProjectNode where
  name : String
  keyword : String
  updatedAt : Nat
  deriving Repr, DecidableEq

structure ReqNode where
  description : String
  project : String
  index : Nat
  deriving Repr, DecidableEq

structure RiskNode where
  description : String
  project : String
  index : Nat
  deriving Repr, DecidableEq

structure Graph where
  projects : List ProjectNode
  reqs : List ReqNode
  risks : List RiskNode
  hasRequirement : List (String × ReqNode)
  hasRisk : List (ReqNode × RiskNode)
  deriving Repr, DecidableEq

def emptyGraph : Graph := ⟨[], [], [], [], []⟩

/-- `MERGE (p:Project {name: $project_name}) SET p.keyword, p.updated_at`. -/
def mergeProject (g : Graph) (name keyword : String) (t : Nat) : Graph :=
  if g.projects.any (·.name = name) then
    {g with projects := g.projects.map fun p =>
      if p.name = name then {p with keyword := keyword, updatedAt := t} else p}
  else
    {g with projects := g.projects ++ [⟨name, keyword, t⟩]}

/-- One iteration of the requirement loop of `save_to_neo4j`:
`MATCH (p:Project {name}) MERGE (r:Requirement {description, project,
index}) MERGE (p)-[:HAS_REQUIREMENT]->(r)`.  If the `MATCH` finds no
project the query produces no rows and nothing happens. -/
def saveReqStep (project_name : String) (g : Graph) (idx : Nat) (desc : String) : Graph :=
  if g.projects.any (·.name = project_name) then
    let node : ReqNode := ⟨desc, project_name, idx⟩
    let g1 := if node ∈ g.reqs then g else {g with reqs := g.reqs ++ [node]}
    if (project_name, node) ∈ g1.hasRequirement then g1
    else {g1 with hasRequirement := g1.hasRequirement ++ [(project_name, node)]}
  else g

/-- One iteration of the risk loop of `save_to_neo4j`:
`MATCH (p:Project {name}) MATCH (r:Requirement {project, index})
MERGE (rk:Risk {description, project, index}) MERGE (r)-[:HAS_RISK]->(rk)`.
The risk `MERGE` runs once per matched requirement row; the first row
creates the node, later rows match it, and a `HAS_RISK` edge is merged from
every matched requirement. -/
def saveRiskStep (project_name : String) (g : Graph) (idx : Nat) (desc : String) : Graph :=
  if g.projects.any (·.name = project_name) then
    let matched := g.reqs.filter fun r => r.project = project_name ∧ r.index = idx
    match matched with
    | [] => g
    | _ =>
      let node : RiskNode := ⟨desc, project_name, idx⟩
      let g1 := if node ∈ g.risks then g else {g with risks := g.risks ++ [node]}
      {g1 with hasRisk := (matched.foldl
        (fun es r => if (r, node) ∈ es then es else es ++ [(r, node)]) g1.hasRisk)}
  else g

/-- Python `enumerate(l, k)`. -/
def enumerate1From {α : Type} (k : Nat) : List α → List (Nat × α)
  | [] => []
  | a :: as => (k, a) :: enumerate1From (k + 1) as

/-- Python `enumerate(l, 1)`. -/
def enumerate1 {α : Type} (l : List α) : List (Nat × α) :=
  enumerate1From 1 l

/-- `save_to_neo4j`: upsert the project, then one merged `Requirement` per
list position (1-based), then one merged `Risk` per position attached to
the requirement(s) at the same `(project, index)`. -/
def save_to_neo4j (requirements risks : List String)
    (project_name keyword : String) (t : Nat) (g : Graph) : Graph :=
  let g1 := mergeProject g project_name keyword t
  let g2 := (enumerate1 requirements).foldl
    (fun g p => saveReqStep project_name g p.1 p.2) g1
  (enumerate1 risks).foldl (fun g p => saveRiskStep project_name g p.1 p.2) g2

/-- A result row of the load query: requirement index and description, plus
the optionally matched risk's index and description. -/
abbrev LoadRow := Nat × String × Option (Nat × String)

def insertLe {α : Type} (le : α → α → Bool) (a : α) : List α → List α
  | [] => [a]
  | b :: bs => if le a b then a :: b :: bs else b :: insertLe le a bs

def insertionSortLe {α : Type} (le : α → α → Bool) : List α → List α
  | [] => []
  | a :: as => insertLe le a (insertionSortLe le as)

/-- `ORDER BY req_index, risk_index` with SQL-style null-last ordering for
the optional risk columns. -/
def rowLe (r1 r2 : LoadRow) : Bool :=
  let k : LoadRow → Nat × Nat × Nat := fun r =>
    match r.2.2 with
    | none => (r.1, 1, 0)
    | some (ki, _) => (r.1, 0, ki)
  let a := k r1
  let b := k r2
  a.1 < b.1 ∨ (a.1 = b.1 ∧ (a.2.1 < b.2.1 ∨ (a.2.1 = b.2.1 ∧ a.2.2 ≤ b.2.2)))

/-- Rows of `MATCH (p {name})-[:HAS_REQUIREMENT]->(r) OPTIONAL MATCH
(r)-[:HAS_RISK]->(rk) RETURN r.index, r.description, rk.index,
rk.description`. -/
def loadRows (g : Graph) (project_name : String) : List LoadRow :=
  ((g.hasRequirement.filter (·.1 = project_name)).map (·.2)).flatMap fun r =>
    let rks := (g.hasRisk.filter (·.1 = r)).map (·.2)
    match rks with
    | [] => [(r.index, r.description, none)]
    | _ => rks.map fun k => (r.index, r.description, some (k.index, k.description))

/-- `load-from-neo4j`: rebuild the requirement list by first occurrence per
index sorted ascending, and the risk list in row order, dropping rows whose
risk description is falsy (`NULL` or the empty string). -/
def load_project_from_neo4j (g : Graph) (project_name : String) :
    Option (List String × List String) :=
  let rows := insertionSortLe rowLe (loadRows g project_name)
  match rows with
  | [] => none
  | _ =>
    let reqDict := rows.foldl (fun (d : List (Nat × String)) row =>
      if d.any (·.1 = row.1) then d else d ++ [(row.1, row.2.1)]) []
    let risksL := rows.foldl (fun (acc : List String) row =>
      match row.2.2 with
      | some (_, desc) => if desc ≠ "" then acc ++ [desc] else acc
      | none => acc) []
    let keys := insertionSortLe (fun a b : Nat => decide (a ≤ b)) (reqDict.map (·.1))
    let reqsL := keys.filterMap fun k => (reqDict.find? (·.1 = k)).map (·.2)
    some (reqsL, risksL)

/-- Spec-side refinement model of §4.1 step (2) of the design document,
which says the normalizer locates "the first structural opening bracket of
the expected shape and the last matching closing bracket" and slices
between them.  This definition follows the spec's words and is compared
against `extract_json_from_text`, which takes no expected shape. -/
inductive Shape where
  | array
  | object
  deriving Repr, DecidableEq

def extract_expected_shape (shape : Shape) (text : String) : Option String :=
  let (openC, closeC) :=
    match shape with
    | .array => ('[', ']')
    | .object => ('{', '}')
  if strHasChar text openC ∧ strHasChar text closeC then
    match pyFind text openC, pyRFind text closeC with
    | some s, some e => if e + 1 > s then some (pySlice text s (e + 1)) else none
    | _, _ => none
  else none

/-! ### Concrete example data used by the claim theorems -/

def c2Reqs : List String :=
  ["Requirement one text", "Requirement two text", "Requirement three text",
   "Requirement four text", "Requirement five text"]

def c10ExampleText : String :=
  "Sure! Here are the keywords: [\"a b c\",\"d e f\",\"g h i\",\"j k l\",\"m n o\"] Hope this helps!"

def c10ExampleSlice : String := "[\"a b c\",\"d e f\",\"g h i\",\"j k l\",\"m n o\"]"

def c10ShapeText : String :=
  "x \x7b\"a\": 1\x7d y [\"p q r\",\"s t u\",\"v w x\",\"y z a\",\"b c d\"] z"

def c3State : PState :=
  ⟨"descr", some "kw", some ["rqA", "rqB", "rqC", "rqD", "rqE"],
    some ["rkA", "rkB", "rkC", "rkD", "rkE"]⟩

def c4State : PState :=
  ⟨"d", some "kw", some ["rq1", "rq2", "rq3", "rq4", "rq5"],
    some ["rk1", "rk2", "rk3", "rk4", "rk5"]⟩

def c4WitnessRes : FeedbackResult :=
  ⟨⟨"d", some "kw", some ["rq1", "CCCCCCCCCCCCCC", "rq3", "rq4", "rq5"],
    some ["rk1", "RISKNEWXXXXY", "rk3", "rk4", "rk5"]⟩, [1], [1], []⟩

def c1Reqs : List String := ["r1", "r2", "r3", "r4", "r5"]

def c1Risks : List String := ["k1", "k2", "k3", "k4", "k5"]

def c1G1 : Graph := save_to_neo4j c1Reqs c1Risks "P" "kw" 0 emptyGraph

def c1G2 : Graph := save_to_neo4j (c1Reqs.set 2 "X9") c1Risks "P" "kw" 1 c1G1

/-! ### Support lemmas -/

theorem asStrList_length {xs : List Json} {l : List String}
    (h : asStrList xs = some l) : l.length = xs.length := by
  induction xs generalizing l with
  | nil => simp [asStrList] at h; simp [← h]
  | cons x rest ih =>
    cases x <;> simp [asStrList] at h
    rcases h with ⟨l', hl', rfl⟩
    simp [ih hl']

theorem validateArrStage_ok (parsed : Option Json) (fallback : List String)
    (hf : fallback.length = 5) :
    validateArrStage parsed fallback = .error () ∨
      ∃ l, validateArrStage parsed fallback = .ok l ∧ l.length = 5 := by
  match parsed with
  | none => exact .inr ⟨fallback, rfl, hf⟩
  | some (.arr xs) =>
    by_cases h5 : xs.length = 5
    · cases hs : asStrList xs with
      | none => exact .inl (by simp [validateArrStage, h5, hs])
      | some l =>
        refine .inr ⟨l, by simp [validateArrStage, h5, hs], ?_⟩
        rw [asStrList_length hs, h5]
    · exact .inr ⟨fallback, by simp [validateArrStage, h5], hf⟩
  | some .null => exact .inr ⟨fallback, rfl, hf⟩
  | some (.bool b) => exact .inr ⟨fallback, rfl, hf⟩
  | some (.num n) => exact .inr ⟨fallback, rfl, hf⟩
  | some (.str s) => exact .inr ⟨fallback, rfl, hf⟩
  | some (.obj kvs) => exact .inr ⟨fallback, rfl, hf⟩

theorem generate_keywords_ok (g : GenResult) :
    ∃ ks, generate_keywords g = .ok ks ∧ ks.length = 5 := by
  unfold generate_keywords
  cases g with
  | error e => exact ⟨fallback_keywords, rfl, rfl⟩
  | ok raw =>
    cases hsp : stageParse (pyStrip raw) '[' ']' with
    | error e => exact ⟨fallback_keywords, by simp [hsp], rfl⟩
    | ok parsed =>
      rcases validateArrStage_ok parsed fallback_keywords rfl with h | ⟨l, hl, hlen⟩
      · exact ⟨fallback_keywords, by simp [hsp, h], rfl⟩
      · exact ⟨l, by simp [hsp, hl], hlen⟩

theorem fallback_requirements_length (kw : String) :
    (fallback_requirements kw).length = 5 := rfl

theorem generate_requirements_ok (kw : String) (g : GenResult) :
    ∃ rs, generate_requirements kw g = .ok rs ∧ rs.length = 5 := by
  unfold generate_requirements
  cases g with
  | error e => exact ⟨fallback_requirements kw, rfl, rfl⟩
  | ok raw =>
    cases hsp : stageParse (pyStrip raw) '[' ']' with
    | error e => exact ⟨fallback_requirements kw, by simp [hsp], rfl⟩
    | ok parsed =>
      rcases validateArrStage_ok parsed (fallback_requirements kw) rfl with h | ⟨l, hl, hlen⟩
      · exact ⟨fallback_requirements kw, by simp [hsp, h], rfl⟩
      · exact ⟨l, by simp [hsp, hl], hlen⟩

theorem generate_fallback_risks_length (reqs : List String) :
    (generate_fallback_risks reqs).length = 5 := by
  unfold generate_fallback_risks
  simp
  omega

theorem risksVal_catch (parsed : Option Json) (reqs : List String) :
    ∃ l, (match validateArrStage
            (match parsed with
              | some (.obj kvs) => lookupLast kvs "Risks"
              | _ => none)
            (generate_fallback_risks reqs) with
          | Except.ok rs => Except.ok rs
          | Except.error _ => Except.ok (generate_fallback_risks reqs))
        = (.ok l : Except Unit (List String)) ∧ l.length = 5 := by
  rcases validateArrStage_ok
      (match parsed with
        | some (.obj kvs) => lookupLast kvs "Risks"
        | _ => none)
      (generate_fallback_risks reqs) (generate_fallback_risks_length reqs) with
    h | ⟨l, hl, hlen⟩
  · exact ⟨generate_fallback_risks reqs, by rw [h], generate_fallback_risks_length reqs⟩
  · exact ⟨l, by rw [hl], hlen⟩

theorem generate_risks_ok (reqs : List String) (g : GenResult) :
    ∃ rs, generate_risks reqs g = .ok rs ∧ rs.length = 5 := by
  cases g with
  | error e => exact ⟨generate_fallback_risks reqs, rfl, generate_fallback_risks_length reqs⟩
  | ok raw =>
    cases hsp : stageParse (pyStrip raw) '{' '}' with
    | error e =>
      refine ⟨generate_fallback_risks reqs, ?_, generate_fallback_risks_length reqs⟩
      unfold generate_risks
      simp only [hsp]
    | ok parsed =>
      obtain ⟨l, hl, hlen⟩ := risksVal_catch parsed reqs
      refine ⟨l, ?_, hlen⟩
      unfold generate_risks
      simp only [hsp]
      exact hl

/-! ### Claim C5 -/

/-- C5: for every generator outcome — including raw text that is
unparseable garbage and outright failures — the keyword, requirement and
risk stage operations complete without raising, with exactly the required
cardinality: `len(keywords) = 5`, `len(requirements) = 5`, and
`len(risks) = len(requirements) = 5`, substituting the deterministic
templated fallback when parsing or validation fails. -/
theorem c5_stage_fallback_floor (gk grq grs : GenResult) (selected_keyword : String) :
    (∃ ks, generate_keywords gk = .ok ks ∧ ks.length = 5) ∧
    (∃ rs, generate_requirements selected_keyword grq = .ok rs ∧ rs.length = 5 ∧
      ∃ sks, generate_risks rs grs = .ok sks ∧ sks.length = rs.length ∧ rs.length = 5) := by
  refine ⟨generate_keywords_ok gk, ?_⟩
  obtain ⟨rs, hrs, hlen⟩ := generate_requirements_ok selected_keyword grq
  obtain ⟨sks, hsks, hslen⟩ := generate_risks_ok rs grs
  exact ⟨rs, hrs, hlen, sks, hsks, by rw [hslen, hlen], hlen⟩

/-! ### Claim C2 -/

/-- C2 counterexample: when the external generator call itself fails
(`.error ()`), `generate_risks` does **not** propagate a distinguishable
`GenerationUnavailable` status — it returns a normal success carrying the
very same templated fallback used for the malformed-output path, so the
caller cannot tell a dead upstream from a shape-validation failure. -/
theorem c2_counterexample :
    generate_risks c2Reqs (.error ()) = .ok (generate_fallback_risks c2Reqs) ∧
    generate_risks c2Reqs (.error ()) =
      generate_risks c2Reqs (.ok "The service is busy, try again later") ∧
    ∀ e : Unit, generate_risks c2Reqs (.error ()) ≠ .error e := by
  refine ⟨rfl, rfl, ?_⟩
  intro e h
  rw [show generate_risks c2Reqs (.error ()) = .ok (generate_fallback_risks c2Reqs) from rfl] at h
  exact Except.noConfusion h

/-- C2 (amended): a failing generator call in the whole-stage operations
`generate_requirements` / `generate_risks` is caught inside the stage and
silently replaced by the same deterministic fallback content as the
shape-validation path; no distinguishable failure status reaches the
caller. -/
theorem c2_amended_failure_absorbed (kw : String) (reqs : List String) :
    generate_requirements kw (.error ()) = .ok (fallback_requirements kw) ∧
    generate_risks reqs (.error ()) = .ok (generate_fallback_risks reqs) :=
  ⟨rfl, rfl⟩

/-! ### Claim C10 -/

/-- C10 counterexample: `extract_json_from_text` takes no expected shape
and prefers the object slice: on a text holding both an object and the
expected 5-element array, it returns the first-`\x7b`-to-last-`\x7d` slice
instead of the array slice the spec describes, and the keyword stage
consequently falls back instead of using the present 5-element array. -/
theorem c10_counterexample :
    extract_json_from_text c10ShapeText ≠ extract_expected_shape .array c10ShapeText ∧
    extract_json_from_text c10ShapeText = some "\x7b\"a\": 1\x7d" ∧
    extract_expected_shape .array c10ShapeText =
      some "[\"p q r\",\"s t u\",\"v w x\",\"y z a\",\"b c d\"]" ∧
    generate_keywords (.ok c10ShapeText) = .ok fallback_keywords := by
  refine ⟨?_, rfl, rfl, rfl⟩
  intro h
  rw [show extract_json_from_text c10ShapeText = some "\x7b\"a\": 1\x7d" from rfl,
    show extract_expected_shape .array c10ShapeText =
      some "[\"p q r\",\"s t u\",\"v w x\",\"y z a\",\"b c d\"]" from rfl] at h
  exact absurd h (by decide)

/-- C10 (amended): with no fenced block and no object braces in the text,
the normalizer slices from the first `[` to the last `]` and strictly
parses the slice, retrying once after stripping trailing commas before
closing brackets; the commentary-wrapped example yields the 5-element
array (and the keyword stage accepts it), and a trailing-comma array that
strict parsing rejects is repaired on the retry. -/
theorem c10_amended_normalizer :
    extract_json_from_text c10ExampleText = some c10ExampleSlice ∧
    safe_json_parse c10ExampleSlice =
      some (.arr [.str "a b c", .str "d e f", .str "g h i", .str "j k l", .str "m n o"]) ∧
    generate_keywords (.ok c10ExampleText) = .ok ["a b c", "d e f", "g h i", "j k l", "m n o"] ∧
    safe_json_parse "[\"trailing comma entry\", ]" = some (.arr [.str "trailing comma entry"]) ∧
    jsonLoads "[\"trailing comma entry\", ]" = none :=
  ⟨rfl, rfl, rfl, rfl, rfl⟩

/-! ### Index helper lemmas -/

theorem pyIdx_nonneg {len : Nat} {i : Int} (h0 : 0 ≤ i) (h : i < (len : Int)) :
    pyIdx len i = some i.toNat := by
  unfold pyIdx
  rw [if_pos h0, if_pos h]

theorem pyIdx_high {len : Nat} {i : Int} (h : (len : Int) ≤ i) :
    pyIdx len i = none := by
  have h0 : 0 ≤ i := le_trans (Int.ofNat_nonneg len) h
  unfold pyIdx
  rw [if_pos h0, if_neg (by omega)]

theorem pyGet_nonneg {α : Type} (l : List α) {i : Int} (h0 : 0 ≤ i)
    (h : i < (l.length : Int)) : pyGet l i = l[i.toNat]? := by
  unfold pyGet
  rw [pyIdx_nonneg h0 h]
  rfl

theorem pySet_nonneg {α : Type} (l : List α) (a : α) {i : Int} (h0 : 0 ≤ i)
    (h : i < (l.length : Int)) : pySet l i a = some (l.set i.toNat a) := by
  unfold pySet
  rw [pyIdx_nonneg h0 h]
  rfl

theorem pyGet_oob {α : Type} (l : List α) {i : Int} (h : (l.length : Int) ≤ i) :
    pyGet l i = none := by
  unfold pyGet
  rw [pyIdx_high h]
  rfl

theorem pyGet_set_ne {α : Type} (l : List α) (a : α) {i j : Int} (h0i : 0 ≤ i)
    (_hi : i < (l.length : Int)) (h0j : 0 ≤ j) (hne : j ≠ i) :
    pyGet (l.set i.toNat a) j = pyGet l j := by
  unfold pyGet
  rw [List.length_set]
  by_cases hj : j < (l.length : Int)
  · rw [pyIdx_nonneg h0j hj]
    simp only [Option.bind_some, Option.some_bind]
    exact List.getElem?_set_ne (by omega)
  · rw [pyIdx_high (by omega)]
    rfl

theorem pyGet_set_self {α : Type} (l : List α) (a : α) {i : Int} (h0 : 0 ≤ i)
    (h : i < (l.length : Int)) : pyGet (l.set i.toNat a) i = some a := by
  rw [pyGet_nonneg _ h0 (by rw [List.length_set]; exact h)]
  exact List.getElem?_set_self (by omega)

theorem commitSelective_nil (new cur : List String) :
    commitSelective new [] cur = some cur := rfl

theorem commitSelective_cons_in (new cur : List String) (idx : Int) (rest : List Int)
    (h0 : 0 ≤ idx) (hc : idx < (cur.length : Int)) (hn : idx < (new.length : Int))
    (v : String) (hv : pyGet new idx = some v) :
    commitSelective new (idx :: rest) cur =
      commitSelective new rest (cur.set idx.toNat v) := by
  conv_lhs => rw [commitSelective]
  rw [if_pos ⟨hc, hn⟩, hv]
  simp only [pySet_nonneg cur v h0 hc]

/-! ### Claim C3 -/

/-- C3: on a session whose requirements list has 5 elements, the
regenerate-requirements route with index set `[2]` runs the whole-stage
generator once (producing a fresh 5-element batch) and commits only
position 2: positions 0, 1, 3, 4 keep their pre-call values and the risks
list is returned unchanged. -/
theorem c3_selective_regeneration (st : PState) (reqs : List String) (g : GenResult)
    (hkw : truthyOptStr st.selected_keyword = true)
    (hreq : st.requirements = some reqs) (hlen : reqs.length = 5) :
    ∃ fresh v, generate_requirements (kwStr st) g = .ok fresh ∧ fresh.length = 5 ∧
      fresh[2]? = some v ∧
      regenerate_requirements st [2] g =
        .ok {st with requirements := some (reqs.set 2 v)} ∧
      (∀ j : Nat, j < 5 → j ≠ 2 → (reqs.set 2 v)[j]? = reqs[j]?) ∧
      (reqs.set 2 v)[2]? = some v ∧
      ({st with requirements := some (reqs.set 2 v)} : PState).risks = st.risks := by
  obtain ⟨fresh, hfresh, hflen⟩ := generate_requirements_ok (kwStr st) g
  have h2 : 2 < fresh.length := by omega
  obtain ⟨v, hv⟩ : ∃ v, fresh[2]? = some v :=
    ⟨fresh[2], List.getElem?_eq_getElem h2⟩
  have hpg : pyGet fresh (2 : Int) = some v := by
    rw [pyGet_nonneg fresh (by omega) (by omega)]
    exact hv
  refine ⟨fresh, v, hfresh, hflen, hv, ?_, ?_, ?_, rfl⟩
  · unfold regenerate_requirements generateRequirementsNode
    rw [if_neg (show ¬¬(truthyOptStr st.selected_keyword = true) from fun hc => hc hkw),
      hreq, hfresh]
    have hcommit := commitSelective_cons_in fresh reqs 2 [] (by omega) (by omega) (by omega) v hpg
    rw [show ((2 : Int)).toNat = 2 from rfl] at hcommit
    simp only [Option.getD_some, hcommit, commitSelective_nil]
  · intro j hj hne
    exact List.getElem?_set_ne (by omega)
  · exact List.getElem?_set_self (by omega)

/-- Witness for C3 at a concrete session and generator response. -/
theorem c3_selective_regeneration_witness :
    ∃ fresh v,
      generate_requirements (kwStr c3State)
          (.ok "[\"n1 n1\",\"n2 n2\",\"n3 n3\",\"n4 n4\",\"n5 n5\"]") = .ok fresh ∧
      fresh.length = 5 ∧ fresh[2]? = some v ∧
      regenerate_requirements c3State [2]
          (.ok "[\"n1 n1\",\"n2 n2\",\"n3 n3\",\"n4 n4\",\"n5 n5\"]") =
        .ok {c3State with requirements := some (["rqA", "rqB", "rqC", "rqD", "rqE"].set 2 v)} ∧
      (∀ j : Nat, j < 5 → j ≠ 2 →
        (["rqA", "rqB", "rqC", "rqD", "rqE"].set 2 v)[j]? =
          ["rqA", "rqB", "rqC", "rqD", "rqE"][j]?) ∧
      (["rqA", "rqB", "rqC", "rqD", "rqE"].set 2 v)[2]? = some v ∧
      ({c3State with
        requirements := some (["rqA", "rqB", "rqC", "rqD", "rqE"].set 2 v)} : PState).risks =
        c3State.risks :=
  c3_selective_regeneration c3State ["rqA", "rqB", "rqC", "rqD", "rqE"]
    (.ok "[\"n1 n1\",\"n2 n2\",\"n3 n3\",\"n4 n4\",\"n5 n5\"]") rfl rfl rfl


/-! ### Claim C4 -/

theorem pyGet_some {α : Type} (l : List α) {i : Int} (h0 : 0 ≤ i)
    (hlt : i < (l.length : Int)) : ∃ v, pyGet l i = some v := by
  rw [pyGet_nonneg l h0 hlt]
  exact ⟨l[i.toNat], List.getElem?_eq_getElem (by omega)⟩

theorem gen_single_req_spec (orig : List String) {idx : Int} (v : String)
    (hlt : idx < (orig.length : Int)) (hv : pyGet orig idx = some v) (o : GenStream) :
    generate_single_requirement_with_feedback orig idx o =
      (.ok (resolveSingle (nextGen o).1 v), (nextGen o).2) := by
  unfold generate_single_requirement_with_feedback
  rw [if_pos hlt, hv]
  rcases o with _ | ⟨g, rest⟩
  · rfl
  · cases g with
    | error e => rfl
    | ok raw =>
      simp only [nextGen, resolveSingle]
      by_cases hc : (pyCleanQuoted raw).length < 10
      · rw [if_pos hc, if_pos hc]
      · rw [if_neg hc, if_neg hc]

theorem feedbackReqPhase_props (orig : List String) (idxs : List Int) :
    ∀ (cur : List String) (upd : List Int) (o : GenStream),
      cur.length = orig.length →
      idxs.Nodup →
      (∀ i ∈ idxs, 0 ≤ i ∧ i < (orig.length : Int)) →
      (∀ i ∈ idxs, pyGet cur i = pyGet orig i) →
      ∃ cur' newUpd o',
        feedbackReqPhase orig idxs cur upd o = (cur', upd ++ newUpd, o') ∧
        cur'.length = orig.length ∧
        newUpd.Sublist idxs ∧
        (∀ i ∈ idxs, (pyGet cur' i ≠ pyGet orig i ↔ i ∈ newUpd)) ∧
        (∀ j : Int, 0 ≤ j → j ∉ idxs → pyGet cur' j = pyGet cur j) := by
  induction idxs with
  | nil =>
    intro cur upd o hlen _ _ _
    exact ⟨cur, [], o, by simp [feedbackReqPhase], hlen, List.nil_sublist [],
      by simp, fun j _ _ => rfl⟩
  | cons i rest ih =>
    intro cur upd o hlen hnd hrange hcur
    obtain ⟨hnotmem, hndrest⟩ := List.nodup_cons.mp hnd
    obtain ⟨h0i, hlti⟩ := hrange i (List.mem_cons_self i rest)
    have hguard : i < (cur.length : Int) := by rw [hlen]; exact hlti
    obtain ⟨v, hv⟩ := pyGet_some orig h0i hlti
    have hvcur : pyGet cur i = some v := (hcur i (List.mem_cons_self i rest)).trans hv
    have hrw := gen_single_req_spec orig v hlti hv o
    set g1 := (nextGen o).1 with hg1
    set o2 := (nextGen o).2 with ho2
    set r := resolveSingle g1 v with hr
    by_cases hcommit : r ≠ "" ∧ r ≠ v
    · -- the regenerated text is truthy and differs: position i is committed
      have hset := pySet_nonneg cur r h0i hguard
      obtain ⟨cur', newUpd, o', hrun, hlen', hsub, hiff, hframe⟩ :=
        ih (cur.set i.toNat r) (upd ++ [i]) o2
          (by rw [List.length_set]; exact hlen) hndrest
          (fun j hj => hrange j (List.mem_cons_of_mem i hj))
          (fun j hj => by
            obtain ⟨h0j, hltj⟩ := hrange j (List.mem_cons_of_mem i hj)
            rw [pyGet_set_ne cur r h0i hguard h0j (fun hji => hnotmem (hji ▸ hj))]
            exact hcur j (List.mem_cons_of_mem i hj))
      refine ⟨cur', i :: newUpd, o', ?_, hlen', List.Sublist.cons₂ i hsub, ?_, ?_⟩
      · conv_lhs => rw [feedbackReqPhase]
        rw [if_pos hguard, hrw]
        simp only [hvcur, hset]
        rw [if_pos hcommit]
        rw [hrun]
        simp
      · intro j hj
        rcases List.mem_cons.mp hj with rfl | hjr
        · have hgi : pyGet cur' j = some r := by
            rw [hframe j h0i hnotmem]
            exact pyGet_set_self cur r h0i hguard
          constructor
          · intro _
            exact List.mem_cons_self j newUpd
          · intro _
            rw [hgi, hv]
            intro hcon
            exact hcommit.2 (Option.some_injective _ hcon)
        · have hjne : j ≠ i := fun hji => hnotmem (hji ▸ hjr)
          rw [hiff j hjr]
          constructor
          · exact fun h => List.mem_cons_of_mem i h
          · intro h
            rcases List.mem_cons.mp h with rfl | h
            · exact absurd rfl hjne
            · exact h
      · intro j h0j hjmem
        have hjrest : j ∉ rest := fun h => hjmem (List.mem_cons_of_mem i h)
        have hjne : j ≠ i := fun hji => hjmem (hji ▸ List.mem_cons_self i rest)
        rw [hframe j h0j hjrest]
        exact pyGet_set_ne cur r h0i hguard h0j hjne
    · -- unchanged (or empty) regenerated text: no commit at position i
      obtain ⟨cur', newUpd, o', hrun, hlen', hsub, hiff, hframe⟩ :=
        ih cur upd o2 hlen hndrest
          (fun j hj => hrange j (List.mem_cons_of_mem i hj))
          (fun j hj => hcur j (List.mem_cons_of_mem i hj))
      refine ⟨cur', newUpd, o', ?_, hlen', hsub.cons i, ?_, ?_⟩
      · conv_lhs => rw [feedbackReqPhase]
        rw [if_pos hguard, hrw]
        simp only [hvcur]
        rw [if_neg hcommit]
        exact hrun
      · intro j hj
        rcases List.mem_cons.mp hj with rfl | hjr
        · constructor
          · intro hne
            have hsame : pyGet cur' j = pyGet orig j := by
              rw [hframe j h0i hnotmem]
              exact hcur j (List.mem_cons_self j rest)
            exact absurd hsame hne
          · intro hmem
            exact absurd (hsub.subset hmem) hnotmem
        · exact hiff j hjr
      · intro j h0j hjmem
        exact hframe j h0j (fun h => hjmem (List.mem_cons_of_mem i h))

theorem feedbackRiskPhase_attempts (origRisks : List String)
    (reqsNow : Option (List String)) (idxs : List Int) :
    ∀ (curR : List String) (att : List Int) (o : GenStream),
      curR.length = origRisks.length →
      (∀ i ∈ idxs, 0 ≤ i ∧ i < (origRisks.length : Int)) →
      ∃ curR' o',
        feedbackRiskPhase origRisks reqsNow idxs curR att o = (curR', att ++ idxs, o') ∧
        curR'.length = origRisks.length := by
  induction idxs with
  | nil =>
    intro curR att o hlen _
    exact ⟨curR, o, by simp [feedbackRiskPhase], hlen⟩
  | cons i rest ih =>
    intro curR att o hlen hrange
    obtain ⟨h0i, hlti⟩ := hrange i (List.mem_cons_self i rest)
    have hguard : i < (curR.length : Int) := by rw [hlen]; exact hlti
    have hrange' : ∀ j ∈ rest, 0 ≤ j ∧ j < (origRisks.length : Int) :=
      fun j hj => hrange j (List.mem_cons_of_mem i hj)
    obtain ⟨w, hw⟩ := pyGet_some curR h0i hguard
    rcases hcall : generate_single_risk_with_feedback origRisks reqsNow i o with ⟨res, o2⟩
    cases res with
    | error e =>
      obtain ⟨curR', o', hrun, hlen'⟩ := ih curR (att ++ [i]) o2 hlen hrange'
      refine ⟨curR', o', ?_, hlen'⟩
      conv_lhs => rw [feedbackRiskPhase]
      rw [if_pos hguard, hcall]
      simp only []
      rw [hrun]
      simp
    | ok updated =>
      by_cases hcommit : updated ≠ "" ∧ updated ≠ w
      · have hset := pySet_nonneg curR updated h0i hguard
        obtain ⟨curR', o', hrun, hlen'⟩ :=
          ih (curR.set i.toNat updated) (att ++ [i]) o2
            (by rw [List.length_set]; exact hlen) hrange'
        refine ⟨curR', o', ?_, hlen'⟩
        conv_lhs => rw [feedbackRiskPhase]
        rw [if_pos hguard, hcall]
        simp only [hw, hset]
        rw [if_pos hcommit]
        rw [hrun]
        simp
      · obtain ⟨curR', o', hrun, hlen'⟩ := ih curR (att ++ [i]) o2 hlen hrange'
        refine ⟨curR', o', ?_, hlen'⟩
        conv_lhs => rw [feedbackRiskPhase]
        rw [if_pos hguard, hcall]
        simp only [hw]
        rw [if_neg hcommit]
        rw [hrun]
        simp


theorem kwFallback_requirements (st : PState) (threadId : String) :
    (kwFallback st threadId).requirements = st.requirements := by
  unfold kwFallback
  split <;> rfl

theorem kwFallback_risks (st : PState) (threadId : String) :
    (kwFallback st threadId).risks = st.risks := by
  unfold kwFallback
  split <;> rfl

/-- C4: on an aligned 5/5 session, `regenerate-with-feedback` with
`itemType = requirement` and a duplicate-free list of in-range indexes:
the committed indexes form a sublist of the requested ones, an index's
requirement text ends up different from its pre-call text exactly when the
index was committed, untouched indexes keep their pre-call text, and the
risk-regeneration attempts are exactly the committed indexes — one attempt
for every index whose requirement text changed (whether or not the attempt
changes the risk), none for an unchanged index. -/
theorem c4_feedback_cascade (st : PState) (reqs rks : List String)
    (threadId fb : String) (idxs : List Int) (o : GenStream) (res : FeedbackResult)
    (hreq : st.requirements = some reqs) (hrk : st.risks = some rks)
    (hlr : reqs.length = 5) (hlk : rks.length = 5)
    (hnd : idxs.Nodup) (hrange : ∀ i ∈ idxs, 0 ≤ i ∧ i < 5)
    (hrun : regenerate_with_feedback st threadId "requirement" idxs fb o = .ok res) :
    res.riskAttempts = res.updatedRequirementIndexes ∧
    res.updatedRequirementIndexes.Sublist idxs ∧
    res.state.requirements.isSome ∧
    (∀ i ∈ idxs,
      (pyGet (res.state.requirements.getD []) i ≠ pyGet reqs i ↔
        i ∈ res.updatedRequirementIndexes)) ∧
    (∀ j : Int, 0 ≤ j → j ∉ idxs →
      pyGet (res.state.requirements.getD []) j = pyGet reqs j) ∧
    (∀ i ∈ idxs, res.riskAttempts.count i =
      if pyGet (res.state.requirements.getD []) i ≠ pyGet reqs i then 1 else 0) := by
  have hreq1 : (kwFallback st threadId).requirements = some reqs :=
    (kwFallback_requirements st threadId).trans hreq
  have hrk1 : (kwFallback st threadId).risks = some rks :=
    (kwFallback_risks st threadId).trans hrk
  have hrange' : ∀ i ∈ idxs, 0 ≤ i ∧ i < (reqs.length : Int) := by
    intro i hi
    obtain ⟨h0, h5⟩ := hrange i hi
    exact ⟨h0, by omega⟩
  obtain ⟨cur', newUpd, o1, hphase1, hlen', hsub, hiff, hframe⟩ :=
    feedbackReqPhase_props reqs idxs reqs [] o rfl hnd hrange' (fun i _ => rfl)
  have hndU : newUpd.Nodup := hnd.sublist hsub
  have hrangeU : ∀ i ∈ newUpd, 0 ≤ i ∧ i < (rks.length : Int) := by
    intro i hi
    obtain ⟨h0, h5⟩ := hrange i (hsub.subset hi)
    exact ⟨h0, by omega⟩
  obtain ⟨curR', o2, hphase2, hlenR⟩ :=
    feedbackRiskPhase_attempts rks (some cur') newUpd rks [] o1 rfl hrangeU
  unfold regenerate_with_feedback at hrun
  rw [if_pos (rfl : ("requirement" : String) = "requirement"), hreq1] at hrun
  simp only [hrk1, Option.getD_some, hphase1, List.nil_append] at hrun
  by_cases hup : newUpd = []
  · subst hup
    simp only [ne_eq, not_true_eq_false, if_false, hrk1] at hrun
    rw [Except.ok.injEq] at hrun
    subst hrun
    refine ⟨rfl, hsub, by simp, ?_, ?_, ?_⟩
    · intro i hi
      exact hiff i hi
    · intro j h0j hj
      exact hframe j h0j hj
    · intro i hi
      have hnc : ¬ (pyGet cur' i ≠ pyGet reqs i) :=
        fun hne => absurd ((hiff i hi).mp hne) (List.not_mem_nil i)
      simp only [Option.getD_some]
      rw [if_neg hnc]
      rfl
  · rw [if_pos hup] at hrun
    simp only [hphase2, List.nil_append, hrk1] at hrun
    rw [Except.ok.injEq] at hrun
    subst hrun
    refine ⟨rfl, hsub, by simp, ?_, ?_, ?_⟩
    · intro i hi
      exact hiff i hi
    · intro j h0j hj
      exact hframe j h0j hj
    · intro i hi
      simp only [Option.getD_some]
      by_cases hch : pyGet cur' i ≠ pyGet reqs i
      · rw [if_pos hch]
        exact List.count_eq_one_of_mem hndU ((hiff i hi).mp hch)
      · rw [if_neg hch]
        exact List.count_eq_zero.2 (fun hm => hch ((hiff i hi).mpr hm))


/-- Witness for C4 at a concrete session, index list `[1]` and oracle. -/
theorem c4_feedback_cascade_witness :
    c4WitnessRes.riskAttempts = c4WitnessRes.updatedRequirementIndexes ∧
    c4WitnessRes.updatedRequirementIndexes.Sublist [1] ∧
    c4WitnessRes.state.requirements.isSome ∧
    (∀ i ∈ [(1 : Int)],
      (pyGet (c4WitnessRes.state.requirements.getD []) i ≠
          pyGet ["rq1", "rq2", "rq3", "rq4", "rq5"] i ↔
        i ∈ c4WitnessRes.updatedRequirementIndexes)) ∧
    (∀ j : Int, 0 ≤ j → j ∉ [(1 : Int)] →
      pyGet (c4WitnessRes.state.requirements.getD []) j =
        pyGet ["rq1", "rq2", "rq3", "rq4", "rq5"] j) ∧
    (∀ i ∈ [(1 : Int)], c4WitnessRes.riskAttempts.count i =
      if pyGet (c4WitnessRes.state.requirements.getD []) i ≠
          pyGet ["rq1", "rq2", "rq3", "rq4", "rq5"] i then 1 else 0) :=
  c4_feedback_cascade c4State ["rq1", "rq2", "rq3", "rq4", "rq5"]
    ["rk1", "rk2", "rk3", "rk4", "rk5"] "T" "fb" [1]
    [.ok "CCCCCCCCCCCCCC", .ok "RISKNEWXXXXY"] c4WitnessRes
    rfl rfl rfl rfl (by decide) (by decide) rfl

/-- C4 counterexample: a call whose index list repeats the same position
(`[1, 1]`) makes **two** risk-regeneration attempts for the single changed
index 1, refuting "every index whose requirement text actually changed
triggers exactly one risk regeneration attempt" for arbitrary calls. -/
theorem c4_counterexample :
    ∃ res, regenerate_with_feedback c4State "T" "requirement" [1, 1] "fb"
        [.ok "AAAAAAAAAAAAAA", .ok "BBBBBBBBBBBBBB",
         .ok "RISKNEW1XXXX", .ok "RISKNEW2XXXX"] = .ok res ∧
      pyGet (res.state.requirements.getD []) 1 ≠
        pyGet ["rq1", "rq2", "rq3", "rq4", "rq5"] 1 ∧
      res.riskAttempts = [1, 1] ∧
      res.riskAttempts.count 1 = 2 := by
  refine ⟨_, rfl, ?_, rfl, rfl⟩
  decide

/-! ### Claim C7 -/

theorem pyGet_neg_oob {α : Type} (l : List α) {i : Int}
    (h : i < -(l.length : Int)) : pyGet l i = none := by
  unfold pyGet pyIdx
  rw [if_neg (by omega)]
  simp only []
  rw [if_neg (by omega)]
  rfl

theorem gen_single_req_neg_oob (orig : List String) {i : Int} (o : GenStream)
    (h : i < -(orig.length : Int)) :
    generate_single_requirement_with_feedback orig i o = (.error (), o) := by
  simp only [generate_single_requirement_with_feedback]
  rw [if_pos (by omega), pyGet_neg_oob orig h]

theorem gen_single_risk_neg_oob (origRisks : List String)
    (reqsNow : Option (List String)) {i : Int} (o : GenStream)
    (h : i < -(origRisks.length : Int)) :
    generate_single_risk_with_feedback origRisks reqsNow i o = (.error (), o) := by
  simp only [generate_single_risk_with_feedback]
  rw [if_pos (by omega), pyGet_neg_oob origRisks h]

theorem feedbackReqPhase_skip_all (orig : List String) (idxs : List Int) :
    ∀ (cur : List String) (upd : List Int) (o : GenStream),
      orig.length = cur.length →
      (∀ i ∈ idxs, (cur.length : Int) ≤ i ∨ i < -(cur.length : Int)) →
      feedbackReqPhase orig idxs cur upd o = (cur, upd, o) := by
  induction idxs with
  | nil => intro cur upd o _ _; rfl
  | cons i rest ih =>
    intro cur upd o hlen h
    rcases h i (List.mem_cons_self i rest) with hge | hneg
    · conv_lhs => rw [feedbackReqPhase]
      rw [if_neg (by omega)]
      exact ih cur upd o hlen (fun j hj => h j (List.mem_cons_of_mem i hj))
    · conv_lhs => rw [feedbackReqPhase]
      rw [if_pos (by omega), gen_single_req_neg_oob orig o (by omega)]
      simp only []
      exact ih cur upd o hlen (fun j hj => h j (List.mem_cons_of_mem i hj))

theorem feedbackRiskPhase_skip_all (origRisks : List String)
    (reqsNow : Option (List String)) (idxs : List Int) :
    ∀ (curR : List String) (att : List Int) (o : GenStream),
      origRisks.length = curR.length →
      (∀ i ∈ idxs, (curR.length : Int) ≤ i ∨ i < -(curR.length : Int)) →
      feedbackRiskPhase origRisks reqsNow idxs curR att o =
        (curR, att ++ idxs.filter (fun i => decide (i < -(curR.length : Int))), o) := by
  induction idxs with
  | nil => intro curR att o _ _; simp [feedbackRiskPhase]
  | cons i rest ih =>
    intro curR att o hlen h
    rcases h i (List.mem_cons_self i rest) with hge | hneg
    · conv_lhs => rw [feedbackRiskPhase]
      rw [if_neg (by omega)]
      rw [ih curR att o hlen (fun j hj => h j (List.mem_cons_of_mem i hj))]
      simp only [List.filter_cons, decide_eq_true_eq]
      rw [if_neg (by omega)]
    · conv_lhs => rw [feedbackRiskPhase]
      rw [if_pos (by omega), gen_single_risk_neg_oob origRisks reqsNow o (by omega)]
      simp only []
      rw [ih curR (att ++ [i]) o hlen (fun j hj => h j (List.mem_cons_of_mem i hj))]
      simp only [List.filter_cons, decide_eq_true_eq]
      rw [if_pos (by omega), List.append_assoc]
      rfl

theorem kwFallback_truthy (st : PState) (threadId : String)
    (hkw : truthyOptStr st.selected_keyword = true) : kwFallback st threadId = st := by
  unfold kwFallback
  rw [if_pos hkw]

/-- C7 counterexample: a single-item regeneration call with the
out-of-range index 7 on a 5-item list is **not** rejected as a caller
error — the route succeeds, the state is unchanged, and the generator is
never invoked (the oracle is returned unconsumed). -/
theorem c7_counterexample :
    regenerate_with_feedback c4State "T" "requirement" [7] "fb"
        [.ok "ZZZZZZZZZZZZZZZ"] =
      .ok ⟨c4State, [], [], [.ok "ZZZZZZZZZZZZZZZ"]⟩ ∧
    ∀ e, regenerate_with_feedback c4State "T" "requirement" [7] "fb"
        [.ok "ZZZZZZZZZZZZZZZ"] ≠ .error e := by
  refine ⟨rfl, ?_⟩
  intro e h
  rw [show regenerate_with_feedback c4State "T" "requirement" [7] "fb"
      [.ok "ZZZZZZZZZZZZZZZ"] =
    .ok ⟨c4State, [], [], [.ok "ZZZZZZZZZZZZZZZ"]⟩ from rfl] at h
  exact Except.noConfusion h

/-- C7 (amended): feedback-scoped single-item regeneration silently skips
out-of-range indexes instead of rejecting them, for both item types.  An
index `≥ len` fails the route's `if idx < len` guard, so the generator is
never invoked; an index `< -len` passes the guard, but the single-item
generator raises `IndexError` reading the list and the route's per-index
handler catches it and skips the index.  In both regimes the call succeeds
with the session state unchanged, no update committed and the oracle
unconsumed; for item type `risks` the `< -len` indexes do appear in the
attempts trace (the generator function was entered before failing). -/
theorem c7_amended_oob_ignored (st : PState) (reqs rks : List String)
    (threadId fb : String) (idxsR idxsK : List Int) (o : GenStream)
    (hkw : truthyOptStr st.selected_keyword = true)
    (hreq : st.requirements = some reqs) (hrk : st.risks = some rks)
    (hR : ∀ i ∈ idxsR, (reqs.length : Int) ≤ i ∨ i < -(reqs.length : Int))
    (hK : ∀ i ∈ idxsK, (rks.length : Int) ≤ i ∨ i < -(rks.length : Int)) :
    regenerate_with_feedback st threadId "requirement" idxsR fb o = .ok ⟨st, [], [], o⟩ ∧
    regenerate_with_feedback st threadId "risks" idxsK fb o =
      .ok ⟨st, [], idxsK.filter (fun i => decide (i < -(rks.length : Int))), o⟩ := by
  have hstr : ({st with requirements := some reqs} : PState) = st := by
    rw [← hreq]
  have hstk : ({st with risks := some rks} : PState) = st := by
    rw [← hrk]
  constructor
  · unfold regenerate_with_feedback
    rw [kwFallback_truthy st threadId hkw,
      if_pos (rfl : ("requirement" : String) = "requirement"), hreq]
    simp only [hrk, Option.getD_some, feedbackReqPhase_skip_all reqs idxsR reqs [] o rfl hR]
    simp only [ne_eq, not_true_eq_false, if_false, hstr, hrk]
    rw [← hreq, ← hrk]
  · unfold regenerate_with_feedback
    rw [kwFallback_truthy st threadId hkw,
      if_neg (show ¬(("risks" : String) = "requirement") by decide),
      if_pos (rfl : ("risks" : String) = "risks"), hrk]
    simp only [feedbackRiskPhase_skip_all rks st.requirements idxsK rks [] o rfl hK,
      List.nil_append]
    simp only [hstk, hreq]
    rw [← hreq, ← hrk]

/-- Witness for C7 (amended) at a concrete session, with one index past the
end and one below `-len` in each list; the `< -len` risk index `-7` is
recorded as a (failed) attempt, everything else is untouched. -/
theorem c7_amended_oob_ignored_witness :
    regenerate_with_feedback c4State "T" "requirement" [7, -9] "fb" [] =
      .ok ⟨c4State, [], [], []⟩ ∧
    regenerate_with_feedback c4State "T" "risks" [9, -7] "fb" [] =
      .ok ⟨c4State, [], [-7], []⟩ := by
  have h := c7_amended_oob_ignored c4State ["rq1", "rq2", "rq3", "rq4", "rq5"]
    ["rk1", "rk2", "rk3", "rk4", "rk5"] "T" "fb" [7, -9] [9, -7] []
    rfl rfl rfl (by decide) (by decide)
  exact ⟨h.1, h.2⟩


/-! ### Claim C8 -/

theorem pySet_some {α : Type} (l : List α) (a : α) {i : Int}
    (hge : -(l.length : Int) ≤ i) (hlt : i < (l.length : Int)) :
    ∃ l', pySet l i a = some l' ∧ l'.length = l.length := by
  unfold pySet pyIdx
  by_cases h0 : 0 ≤ i
  · rw [if_pos h0, if_pos hlt]
    exact ⟨_, rfl, List.length_set l _ a⟩
  · rw [if_neg h0]
    simp only [if_pos (show (0 : Int) ≤ (l.length : Int) + i by omega)]
    exact ⟨_, rfl, List.length_set l _ a⟩

/-- C8 counterexample: a manual edit of requirement 1 with cascade
requested regenerates the **whole** risks list (here the generator fails
and the deterministic fallback batch is installed): the risk at index 0 is
not preserved, refuting "risks at every index other than i keep their
pre-call values". -/
theorem c8_counterexample :
    ∃ st', update_item c4State "requirement" 1 "Completely new requirement text" true
        (.error ()) = .ok st' ∧
      (st'.risks.getD [])[0]? ≠ (c4State.risks.getD [])[0]? ∧
      (st'.risks.getD [])[0]? =
        some "Potential challenges in implementing: rq1..." := by
  refine ⟨_, rfl, ?_, by decide⟩
  decide

/-- C8 (amended): `update-item` on a requirement with cascade requested and
risks present overwrites the requirement at the requested index and then
re-runs the whole-stage risk generator: the risks list is replaced in its
entirety by a freshly generated (or fallback) 5-element batch computed
from the updated requirements; the pre-call risks do not survive by
construction. -/
theorem c8_amended_cascade (st : PState) (reqs rks : List String) (i : Int)
    (newText : String) (g : GenResult)
    (hreq : st.requirements = some reqs) (hrk : st.risks = some rks)
    (h0 : 0 ≤ i) (hlt : i < (reqs.length : Int)) :
    ∃ freshRisks, generate_risks (reqs.set i.toNat newText) g = .ok freshRisks ∧
      freshRisks.length = 5 ∧
      update_item st "requirement" i newText true g =
        .ok {st with requirements := some (reqs.set i.toNat newText),
                     risks := some freshRisks} := by
  obtain ⟨frs, hfrs, hflen⟩ := generate_risks_ok (reqs.set i.toNat newText) g
  refine ⟨frs, hfrs, hflen, ?_⟩
  unfold update_item generateRisksNode
  rw [if_pos (rfl : ("requirement" : String) = "requirement"), hreq]
  simp only []
  rw [if_neg (show ¬((reqs.length : Int) ≤ i) by omega),
    pySet_nonneg reqs newText h0 hlt]
  simp only [hrk, Option.isSome_some, hfrs]
  simp

/-- Witness for C8 (amended) at a concrete session and failing generator. -/
theorem c8_amended_cascade_witness :
    ∃ freshRisks,
      generate_risks (["rq1", "rq2", "rq3", "rq4", "rq5"].set 1 "Brand new text")
          (.error ()) = .ok freshRisks ∧
      freshRisks.length = 5 ∧
      update_item c4State "requirement" 1 "Brand new text" true (.error ()) =
        .ok {c4State with
          requirements := some (["rq1", "rq2", "rq3", "rq4", "rq5"].set 1 "Brand new text"),
          risks := some freshRisks} :=
  c8_amended_cascade c4State ["rq1", "rq2", "rq3", "rq4", "rq5"]
    ["rk1", "rk2", "rk3", "rk4", "rk5"] 1 "Brand new text" (.error ())
    rfl rfl (by decide) (by decide)

/-! ### Claim C9 -/

/-- C9: with both lists present, `update-item` fails with the
invalid-index caller error exactly when the given index is `≥` the length
of the corresponding list (index 7 on a 5-item list is rejected before any
mutation), while any index with `-len ≤ index < len` — negative indexes
included — is not rejected and the call succeeds. -/
theorem c9_update_item_invalid_index (st : PState) (reqs rks : List String) (i : Int)
    (newText : String) (rel : Bool) (g : GenResult)
    (hreq : st.requirements = some reqs) (hrk : st.risks = some rks) :
    (update_item st "requirement" i newText rel g =
        .error (.badRequest "Invalid requirement index") ↔ (reqs.length : Int) ≤ i) ∧
    (update_item st "risk" i newText rel g =
        .error (.badRequest "Invalid risk index") ↔ (rks.length : Int) ≤ i) ∧
    (-(reqs.length : Int) ≤ i → i < (reqs.length : Int) →
      ∃ st', update_item st "requirement" i newText rel g = .ok st') ∧
    (-(rks.length : Int) ≤ i → i < (rks.length : Int) →
      ∃ st', update_item st "risk" i newText rel g = .ok st') := by
  refine ⟨?_, ?_, ?_, ?_⟩
  · by_cases hge : (reqs.length : Int) ≤ i
    · refine iff_of_true ?_ hge
      unfold update_item
      rw [if_pos (rfl : ("requirement" : String) = "requirement"), hreq]
      simp only []
      rw [if_pos hge]
    · refine iff_of_false ?_ hge
      unfold update_item
      rw [if_pos (rfl : ("requirement" : String) = "requirement"), hreq]
      simp only []
      rw [if_neg hge]
      cases hset : pySet reqs i newText with
      | none =>
        simp only [hset]
        intro h
        injection h with h1
        exact RouteErr.noConfusion h1
      | some reqs' =>
        obtain ⟨frs, hfrs, _⟩ := generate_risks_ok reqs' g
        have hnode : generateRisksNode {st with requirements := some reqs'} g =
            .ok {st with requirements := some reqs', risks := some frs} := by
          unfold generateRisksNode
          simp only [hfrs]
        simp only [hset]
        split
        · rw [hnode]
          intro h
          exact Except.noConfusion h
        · intro h
          exact Except.noConfusion h
  · by_cases hge : (rks.length : Int) ≤ i
    · refine iff_of_true ?_ hge
      unfold update_item
      rw [if_neg (show ¬(("risk" : String) = "requirement") by decide),
        if_pos (rfl : ("risk" : String) = "risk"), hrk]
      simp only []
      rw [if_pos hge]
    · refine iff_of_false ?_ hge
      unfold update_item
      rw [if_neg (show ¬(("risk" : String) = "requirement") by decide),
        if_pos (rfl : ("risk" : String) = "risk"), hrk]
      simp only []
      rw [if_neg hge]
      cases hset : pySet rks i newText with
      | none =>
        simp only [hset]
        intro h
        injection h with h1
        exact RouteErr.noConfusion h1
      | some rks' =>
        simp only [hset]
        intro h
        exact Except.noConfusion h
  · intro hgeN hlt
    unfold update_item
    rw [if_pos (rfl : ("requirement" : String) = "requirement"), hreq]
    simp only []
    rw [if_neg (show ¬((reqs.length : Int) ≤ i) by omega)]
    obtain ⟨reqs', hset, _⟩ := pySet_some reqs newText hgeN hlt
    obtain ⟨frs, hfrs, _⟩ := generate_risks_ok reqs' g
    have hnode : generateRisksNode {st with requirements := some reqs'} g =
        .ok {st with requirements := some reqs', risks := some frs} := by
      unfold generateRisksNode
      simp only [hfrs]
    simp only [hset]
    split
    · rw [hnode]
      exact ⟨_, rfl⟩
    · exact ⟨_, rfl⟩
  · intro hgeN hlt
    unfold update_item
    rw [if_neg (show ¬(("risk" : String) = "requirement") by decide),
      if_pos (rfl : ("risk" : String) = "risk"), hrk]
    simp only []
    rw [if_neg (show ¬((rks.length : Int) ≤ i) by omega)]
    obtain ⟨rks', hset, _⟩ := pySet_some rks newText hgeN hlt
    simp only [hset]
    exact ⟨_, rfl⟩

/-- Witness for C9: index 7 on the 5-item lists is rejected as an
invalid-index error for both item types, and the negative index -1 is not
rejected (the call succeeds). -/
theorem c9_update_item_invalid_index_witness :
    ((update_item c4State "requirement" 7 "text" true (.error ()) =
        .error (.badRequest "Invalid requirement index") ↔
      ((["rq1", "rq2", "rq3", "rq4", "rq5"] : List String).length : Int) ≤ 7) ∧
     (update_item c4State "risk" 7 "text" true (.error ()) =
        .error (.badRequest "Invalid risk index") ↔
      ((["rk1", "rk2", "rk3", "rk4", "rk5"] : List String).length : Int) ≤ 7) ∧
     (-((["rq1", "rq2", "rq3", "rq4", "rq5"] : List String).length : Int) ≤ 7 →
       (7 : Int) < ((["rq1", "rq2", "rq3", "rq4", "rq5"] : List String).length : Int) →
       ∃ st', update_item c4State "requirement" 7 "text" true (.error ()) = .ok st') ∧
     (-((["rk1", "rk2", "rk3", "rk4", "rk5"] : List String).length : Int) ≤ 7 →
       (7 : Int) < ((["rk1", "rk2", "rk3", "rk4", "rk5"] : List String).length : Int) →
       ∃ st', update_item c4State "risk" 7 "text" true (.error ()) = .ok st')) ∧
    ((update_item c4State "requirement" (-1) "text" false (.error ()) =
        .error (.badRequest "Invalid requirement index") ↔
      ((["rq1", "rq2", "rq3", "rq4", "rq5"] : List String).length : Int) ≤ -1) ∧
     (update_item c4State "risk" (-1) "text" false (.error ()) =
        .error (.badRequest "Invalid risk index") ↔
      ((["rk1", "rk2", "rk3", "rk4", "rk5"] : List String).length : Int) ≤ -1) ∧
     (-((["rq1", "rq2", "rq3", "rq4", "rq5"] : List String).length : Int) ≤ -1 →
       (-1 : Int) < ((["rq1", "rq2", "rq3", "rq4", "rq5"] : List String).length : Int) →
       ∃ st', update_item c4State "requirement" (-1) "text" false (.error ()) = .ok st') ∧
     (-((["rk1", "rk2", "rk3", "rk4", "rk5"] : List String).length : Int) ≤ -1 →
       (-1 : Int) < ((["rk1", "rk2", "rk3", "rk4", "rk5"] : List String).length : Int) →
       ∃ st', update_item c4State "risk" (-1) "text" false (.error ()) = .ok st')) :=
  ⟨c9_update_item_invalid_index c4State ["rq1", "rq2", "rq3", "rq4", "rq5"]
      ["rk1", "rk2", "rk3", "rk4", "rk5"] 7 "text" true (.error ()) rfl rfl,
   c9_update_item_invalid_index c4State ["rq1", "rq2", "rq3", "rq4", "rq5"]
      ["rk1", "rk2", "rk3", "rk4", "rk5"] (-1) "text" false (.error ()) rfl rfl⟩


/-! ### Claim C1: merge-semantics lemmas for the persisted graph -/

theorem mergeProject_reqs (g : Graph) (n k : String) (t : Nat) :
    (mergeProject g n k t).reqs = g.reqs := by
  unfold mergeProject
  split <;> rfl

theorem mergeProject_risks (g : Graph) (n k : String) (t : Nat) :
    (mergeProject g n k t).risks = g.risks := by
  unfold mergeProject
  split <;> rfl

theorem mergeProject_hasRequirement (g : Graph) (n k : String) (t : Nat) :
    (mergeProject g n k t).hasRequirement = g.hasRequirement := by
  unfold mergeProject
  split <;> rfl

theorem mergeProject_hasRisk (g : Graph) (n k : String) (t : Nat) :
    (mergeProject g n k t).hasRisk = g.hasRisk := by
  unfold mergeProject
  split <;> rfl

theorem mergeProject_present (g : Graph) (n k : String) (t : Nat) :
    (mergeProject g n k t).projects.any (·.name = n) = true := by
  unfold mergeProject
  split
  · next hp =>
    rw [List.any_eq_true] at hp ⊢
    obtain ⟨p, hmem, hname⟩ := hp
    refine ⟨{p with keyword := k, updatedAt := t}, ?_, hname⟩
    rw [List.mem_map]
    exact ⟨p, hmem, by rw [if_pos (of_decide_eq_true hname)]⟩
  · rw [List.any_eq_true]
    exact ⟨⟨n, k, t⟩, by simp, by simp⟩

theorem mergeProject_length_present (g : Graph) (n k : String) (t : Nat)
    (hp : g.projects.any (·.name = n) = true) :
    (mergeProject g n k t).projects.length = g.projects.length := by
  unfold mergeProject
  rw [if_pos hp, List.length_map]

theorem saveReqStep_projects (pn : String) (g : Graph) (i : Nat) (d : String) :
    (saveReqStep pn g i d).projects = g.projects := by
  simp only [saveReqStep]
  split
  · split <;> split <;> rfl
  · rfl

theorem saveReqStep_risks (pn : String) (g : Graph) (i : Nat) (d : String) :
    (saveReqStep pn g i d).risks = g.risks := by
  simp only [saveReqStep]
  split
  · split <;> split <;> rfl
  · rfl

theorem saveReqStep_hasRisk (pn : String) (g : Graph) (i : Nat) (d : String) :
    (saveReqStep pn g i d).hasRisk = g.hasRisk := by
  simp only [saveReqStep]
  split
  · split <;> split <;> rfl
  · rfl

theorem saveReqStep_reqs_mono (pn : String) (g : Graph) (i : Nat) (d : String)
    {n : ReqNode} (h : n ∈ g.reqs) : n ∈ (saveReqStep pn g i d).reqs := by
  simp only [saveReqStep]
  split
  · split <;> split <;> first | exact h | exact List.mem_append_left _ h
  · exact h

theorem saveReqStep_hasReq_mono (pn : String) (g : Graph) (i : Nat) (d : String)
    {e : String × ReqNode} (h : e ∈ g.hasRequirement) :
    e ∈ (saveReqStep pn g i d).hasRequirement := by
  simp only [saveReqStep]
  split
  · split <;> split <;> first | exact h | exact List.mem_append_left _ h
  · exact h

theorem saveReqStep_mem (pn : String) (g : Graph) (i : Nat) (d : String)
    (hp : g.projects.any (·.name = pn) = true) :
    ReqNode.mk d pn i ∈ (saveReqStep pn g i d).reqs ∧
    (pn, ReqNode.mk d pn i) ∈ (saveReqStep pn g i d).hasRequirement := by
  simp only [saveReqStep]
  rw [if_pos hp]
  constructor
  · split <;> split
    · assumption
    · assumption
    · exact List.mem_append_right _ (by simp)
    · exact List.mem_append_right _ (by simp)
  · split <;> split
    · assumption
    · exact List.mem_append_right _ (by simp)
    · assumption
    · exact List.mem_append_right _ (by simp)

theorem saveReqStep_noop (pn : String) (g : Graph) (i : Nat) (d : String)
    (hp : g.projects.any (·.name = pn) = true)
    (hn : ReqNode.mk d pn i ∈ g.reqs)
    (he : (pn, ReqNode.mk d pn i) ∈ g.hasRequirement) :
    saveReqStep pn g i d = g := by
  simp only [saveReqStep]
  rw [if_pos hp, if_pos hn, if_pos he]

theorem saveRiskStep_projects (pn : String) (g : Graph) (i : Nat) (d : String) :
    (saveRiskStep pn g i d).projects = g.projects := by
  simp only [saveRiskStep]
  split
  · split
    · rfl
    · split <;> rfl
  · rfl

theorem saveRiskStep_reqs (pn : String) (g : Graph) (i : Nat) (d : String) :
    (saveRiskStep pn g i d).reqs = g.reqs := by
  simp only [saveRiskStep]
  split
  · split
    · rfl
    · split <;> rfl
  · rfl

theorem saveRiskStep_hasRequirement (pn : String) (g : Graph) (i : Nat) (d : String) :
    (saveRiskStep pn g i d).hasRequirement = g.hasRequirement := by
  simp only [saveRiskStep]
  split
  · split
    · rfl
    · split <;> rfl
  · rfl

theorem edgeFold_mono (node : RiskNode) (matched : List ReqNode)
    {e : ReqNode × RiskNode} :
    ∀ (es : List (ReqNode × RiskNode)), e ∈ es →
      e ∈ matched.foldl
        (fun es r => if (r, node) ∈ es then es else es ++ [(r, node)]) es := by
  induction matched with
  | nil => intro es h; exact h
  | cons r rest ih =>
    intro es h
    simp only [List.foldl_cons]
    apply ih
    split
    · exact h
    · exact List.mem_append_left _ h

theorem edgeFold_mem (node : RiskNode) (matched : List ReqNode) :
    ∀ (es : List (ReqNode × RiskNode)) (r : ReqNode), r ∈ matched →
      (r, node) ∈ matched.foldl
        (fun es r => if (r, node) ∈ es then es else es ++ [(r, node)]) es := by
  induction matched with
  | nil => intro es r h; exact absurd h (List.not_mem_nil r)
  | cons a rest ih =>
    intro es r h
    simp only [List.foldl_cons]
    rcases List.mem_cons.mp h with rfl | hr
    · apply edgeFold_mono
      split
      · assumption
      · exact List.mem_append_right _ (by simp)
    · exact ih _ r hr

theorem edgeFold_noop (node : RiskNode) (matched : List ReqNode) :
    ∀ (es : List (ReqNode × RiskNode)), (∀ r ∈ matched, (r, node) ∈ es) →
      matched.foldl (fun es r => if (r, node) ∈ es then es else es ++ [(r, node)]) es
        = es := by
  induction matched with
  | nil => intro es _; rfl
  | cons a rest ih =>
    intro es h
    simp only [List.foldl_cons]
    rw [if_pos (h a (List.mem_cons_self a rest))]
    exact ih es (fun r hr => h r (List.mem_cons_of_mem a hr))

theorem saveRiskStep_risks_mono (pn : String) (g : Graph) (i : Nat) (d : String)
    {n : RiskNode} (h : n ∈ g.risks) : n ∈ (saveRiskStep pn g i d).risks := by
  simp only [saveRiskStep]
  split
  · split
    · exact h
    · split
      · exact h
      · exact List.mem_append_left _ h
  · exact h

theorem saveRiskStep_hasRisk_mono (pn : String) (g : Graph) (i : Nat) (d : String)
    {e : ReqNode × RiskNode} (h : e ∈ g.hasRisk) :
    e ∈ (saveRiskStep pn g i d).hasRisk := by
  simp only [saveRiskStep]
  split
  · split
    · exact h
    · split <;> exact edgeFold_mono _ _ _ h
  · exact h

theorem saveRiskStep_mem (pn : String) (g : Graph) (i : Nat) (d : String)
    (hp : g.projects.any (·.name = pn) = true)
    (hm : g.reqs.filter (fun r => r.project = pn ∧ r.index = i) ≠ []) :
    RiskNode.mk d pn i ∈ (saveRiskStep pn g i d).risks ∧
    (∀ r ∈ g.reqs.filter (fun r => r.project = pn ∧ r.index = i),
      (r, RiskNode.mk d pn i) ∈ (saveRiskStep pn g i d).hasRisk) := by
  simp only [saveRiskStep]
  rw [if_pos hp]
  rcases hfil : g.reqs.filter (fun r => r.project = pn ∧ r.index = i) with _ | ⟨a, rest⟩
  · exact absurd hfil hm
  · rw [hfil]
    simp only []
    constructor
    · split
      · assumption
      · exact List.mem_append_right _ (by simp)
    · intro r hr
      split
      · exact edgeFold_mem _ _ _ r hr
      · exact edgeFold_mem _ _ _ r hr

theorem saveRiskStep_noop (pn : String) (g : Graph) (i : Nat) (d : String)
    (hp : g.projects.any (·.name = pn) = true)
    (h : g.reqs.filter (fun r => r.project = pn ∧ r.index = i) = [] ∨
      (RiskNode.mk d pn i ∈ g.risks ∧
        ∀ r ∈ g.reqs.filter (fun r => r.project = pn ∧ r.index = i),
          (r, RiskNode.mk d pn i) ∈ g.hasRisk)) :
    saveRiskStep pn g i d = g := by
  simp only [saveRiskStep]
  rw [if_pos hp]
  rcases hfil : g.reqs.filter (fun r => r.project = pn ∧ r.index = i) with _ | ⟨a, rest⟩
  · rw [hfil]
  · rcases h with h | ⟨hn, he⟩
    · rw [hfil] at h
      exact absurd h (by simp)
    · rw [hfil]
      simp only []
      rw [if_pos hn]
      have hfold : (a :: rest).foldl
          (fun es r => if (r, RiskNode.mk d pn i) ∈ es then es
            else es ++ [(r, RiskNode.mk d pn i)]) g.hasRisk = g.hasRisk :=
        edgeFold_noop _ _ _ (fun r hr => he r (by rw [hfil]; exact hr))
      rw [hfold]


theorem reqFold_projects (pn : String) (l : List (Nat × String)) :
    ∀ g : Graph,
      (l.foldl (fun g p => saveReqStep pn g p.1 p.2) g).projects = g.projects := by
  induction l with
  | nil => intro g; rfl
  | cons a rest ih =>
    intro g
    rw [List.foldl_cons, ih, saveReqStep_projects]

theorem reqFold_risks (pn : String) (l : List (Nat × String)) :
    ∀ g : Graph,
      (l.foldl (fun g p => saveReqStep pn g p.1 p.2) g).risks = g.risks := by
  induction l with
  | nil => intro g; rfl
  | cons a rest ih =>
    intro g
    rw [List.foldl_cons, ih, saveReqStep_risks]

theorem reqFold_hasRisk (pn : String) (l : List (Nat × String)) :
    ∀ g : Graph,
      (l.foldl (fun g p => saveReqStep pn g p.1 p.2) g).hasRisk = g.hasRisk := by
  induction l with
  | nil => intro g; rfl
  | cons a rest ih =>
    intro g
    rw [List.foldl_cons, ih, saveReqStep_hasRisk]

theorem reqFold_reqs_mono (pn : String) (l : List (Nat × String)) :
    ∀ (g : Graph) {n : ReqNode}, n ∈ g.reqs →
      n ∈ (l.foldl (fun g p => saveReqStep pn g p.1 p.2) g).reqs := by
  induction l with
  | nil => intro g n h; exact h
  | cons a rest ih =>
    intro g n h
    rw [List.foldl_cons]
    exact ih _ (saveReqStep_reqs_mono pn g a.1 a.2 h)

theorem reqFold_hasReq_mono (pn : String) (l : List (Nat × String)) :
    ∀ (g : Graph) {e : String × ReqNode}, e ∈ g.hasRequirement →
      e ∈ (l.foldl (fun g p => saveReqStep pn g p.1 p.2) g).hasRequirement := by
  induction l with
  | nil => intro g e h; exact h
  | cons a rest ih =>
    intro g e h
    rw [List.foldl_cons]
    exact ih _ (saveReqStep_hasReq_mono pn g a.1 a.2 h)

theorem reqFold_mem (pn : String) (l : List (Nat × String)) :
    ∀ (g : Graph), g.projects.any (·.name = pn) = true →
      ∀ p ∈ l, ReqNode.mk p.2 pn p.1 ∈
          (l.foldl (fun g p => saveReqStep pn g p.1 p.2) g).reqs ∧
        (pn, ReqNode.mk p.2 pn p.1) ∈
          (l.foldl (fun g p => saveReqStep pn g p.1 p.2) g).hasRequirement := by
  induction l with
  | nil => intro g _ p hp; exact absurd hp (List.not_mem_nil p)
  | cons a rest ih =>
    intro g hp p hmem
    rw [List.foldl_cons]
    have hp' : (saveReqStep pn g a.1 a.2).projects.any (·.name = pn) = true := by
      rw [saveReqStep_projects]; exact hp
    rcases List.mem_cons.mp hmem with rfl | hr
    · obtain ⟨h1, h2⟩ := saveReqStep_mem pn g p.1 p.2 hp
      exact ⟨reqFold_reqs_mono pn rest _ h1, reqFold_hasReq_mono pn rest _ h2⟩
    · exact ih _ hp' p hr

theorem reqFold_noop (pn : String) (l : List (Nat × String)) :
    ∀ (g : Graph), g.projects.any (·.name = pn) = true →
      (∀ p ∈ l, ReqNode.mk p.2 pn p.1 ∈ g.reqs ∧
        (pn, ReqNode.mk p.2 pn p.1) ∈ g.hasRequirement) →
      l.foldl (fun g p => saveReqStep pn g p.1 p.2) g = g := by
  induction l with
  | nil => intro g _ _; rfl
  | cons a rest ih =>
    intro g hp h
    obtain ⟨h1, h2⟩ := h a (List.mem_cons_self a rest)
    rw [List.foldl_cons, saveReqStep_noop pn g a.1 a.2 hp h1 h2]
    exact ih g hp (fun p hpm => h p (List.mem_cons_of_mem a hpm))

theorem riskFold_projects (pn : String) (l : List (Nat × String)) :
    ∀ g : Graph,
      (l.foldl (fun g p => saveRiskStep pn g p.1 p.2) g).projects = g.projects := by
  induction l with
  | nil => intro g; rfl
  | cons a rest ih =>
    intro g
    rw [List.foldl_cons, ih, saveRiskStep_projects]

theorem riskFold_reqs (pn : String) (l : List (Nat × String)) :
    ∀ g : Graph,
      (l.foldl (fun g p => saveRiskStep pn g p.1 p.2) g).reqs = g.reqs := by
  induction l with
  | nil => intro g; rfl
  | cons a rest ih =>
    intro g
    rw [List.foldl_cons, ih, saveRiskStep_reqs]

theorem riskFold_hasRequirement (pn : String) (l : List (Nat × String)) :
    ∀ g : Graph,
      (l.foldl (fun g p => saveRiskStep pn g p.1 p.2) g).hasRequirement =
        g.hasRequirement := by
  induction l with
  | nil => intro g; rfl
  | cons a rest ih =>
    intro g
    rw [List.foldl_cons, ih, saveRiskStep_hasRequirement]

theorem riskFold_risks_mono (pn : String) (l : List (Nat × String)) :
    ∀ (g : Graph) {n : RiskNode}, n ∈ g.risks →
      n ∈ (l.foldl (fun g p => saveRiskStep pn g p.1 p.2) g).risks := by
  induction l with
  | nil => intro g n h; exact h
  | cons a rest ih =>
    intro g n h
    rw [List.foldl_cons]
    exact ih _ (saveRiskStep_risks_mono pn g a.1 a.2 h)

theorem riskFold_hasRisk_mono (pn : String) (l : List (Nat × String)) :
    ∀ (g : Graph) {e : ReqNode × RiskNode}, e ∈ g.hasRisk →
      e ∈ (l.foldl (fun g p => saveRiskStep pn g p.1 p.2) g).hasRisk := by
  induction l with
  | nil => intro g e h; exact h
  | cons a rest ih =>
    intro g e h
    rw [List.foldl_cons]
    exact ih _ (saveRiskStep_hasRisk_mono pn g a.1 a.2 h)

theorem riskFold_mem (pn : String) (l : List (Nat × String)) :
    ∀ (g : Graph), g.projects.any (·.name = pn) = true →
      ∀ p ∈ l, g.reqs.filter (fun r => r.project = pn ∧ r.index = p.1) ≠ [] →
        RiskNode.mk p.2 pn p.1 ∈
          (l.foldl (fun g p => saveRiskStep pn g p.1 p.2) g).risks ∧
        ∀ r ∈ g.reqs.filter (fun r => r.project = pn ∧ r.index = p.1),
          (r, RiskNode.mk p.2 pn p.1) ∈
            (l.foldl (fun g p => saveRiskStep pn g p.1 p.2) g).hasRisk := by
  induction l with
  | nil => intro g _ p hp; exact absurd hp (List.not_mem_nil p)
  | cons a rest ih =>
    intro g hp p hmem hfil
    rw [List.foldl_cons]
    have hp' : (saveRiskStep pn g a.1 a.2).projects.any (·.name = pn) = true := by
      rw [saveRiskStep_projects]; exact hp
    rcases List.mem_cons.mp hmem with rfl | hr
    · obtain ⟨h1, h2⟩ := saveRiskStep_mem pn g p.1 p.2 hp hfil
      exact ⟨riskFold_risks_mono pn rest _ h1,
        fun r hrm => riskFold_hasRisk_mono pn rest _ (h2 r hrm)⟩
    · have hfil' : (saveRiskStep pn g a.1 a.2).reqs.filter
          (fun r => r.project = pn ∧ r.index = p.1) ≠ [] := by
        rw [saveRiskStep_reqs]; exact hfil
      have := ih _ hp' p hr hfil'
      rw [saveRiskStep_reqs] at this
      exact this

theorem riskFold_noop (pn : String) (l : List (Nat × String)) :
    ∀ (g : Graph), g.projects.any (·.name = pn) = true →
      (∀ p ∈ l, g.reqs.filter (fun r => r.project = pn ∧ r.index = p.1) = [] ∨
        (RiskNode.mk p.2 pn p.1 ∈ g.risks ∧
          ∀ r ∈ g.reqs.filter (fun r => r.project = pn ∧ r.index = p.1),
            (r, RiskNode.mk p.2 pn p.1) ∈ g.hasRisk)) →
      l.foldl (fun g p => saveRiskStep pn g p.1 p.2) g = g := by
  induction l with
  | nil => intro g _ _; rfl
  | cons a rest ih =>
    intro g hp h
    rw [List.foldl_cons,
      saveRiskStep_noop pn g a.1 a.2 hp (h a (List.mem_cons_self a rest))]
    exact ih g hp (fun p hpm => h p (List.mem_cons_of_mem a hpm))

theorem save_components (reqs rks : List String) (pn kw : String) (t : Nat) (g : Graph) :
    (save_to_neo4j reqs rks pn kw t g).projects = (mergeProject g pn kw t).projects ∧
    (save_to_neo4j reqs rks pn kw t g).projects.any (·.name = pn) = true ∧
    (∀ p ∈ enumerate1 reqs,
      ReqNode.mk p.2 pn p.1 ∈ (save_to_neo4j reqs rks pn kw t g).reqs ∧
      (pn, ReqNode.mk p.2 pn p.1) ∈ (save_to_neo4j reqs rks pn kw t g).hasRequirement) ∧
    (∀ p ∈ enumerate1 rks,
      (save_to_neo4j reqs rks pn kw t g).reqs.filter
          (fun r => r.project = pn ∧ r.index = p.1) = [] ∨
      (RiskNode.mk p.2 pn p.1 ∈ (save_to_neo4j reqs rks pn kw t g).risks ∧
        ∀ r ∈ (save_to_neo4j reqs rks pn kw t g).reqs.filter
            (fun r => r.project = pn ∧ r.index = p.1),
          (r, RiskNode.mk p.2 pn p.1) ∈ (save_to_neo4j reqs rks pn kw t g).hasRisk)) := by
  unfold save_to_neo4j
  set M := mergeProject g pn kw t with hM
  set GR := (enumerate1 reqs).foldl (fun g p => saveReqStep pn g p.1 p.2) M with hGR
  set GS := (enumerate1 rks).foldl (fun g p => saveRiskStep pn g p.1 p.2) GR with hGS
  have hpM : M.projects.any (·.name = pn) = true := mergeProject_present g pn kw t
  have hpGR : GR.projects.any (·.name = pn) = true := by
    rw [hGR, reqFold_projects]; exact hpM
  refine ⟨?_, ?_, ?_, ?_⟩
  · rw [hGS, riskFold_projects, hGR, reqFold_projects]
  · rw [hGS, riskFold_projects]; exact hpGR
  · intro p hp
    obtain ⟨h1, h2⟩ := reqFold_mem pn (enumerate1 reqs) M hpM p hp
    rw [← hGR] at h1 h2
    constructor
    · rw [hGS]
      have := riskFold_reqs pn (enumerate1 rks) GR
      rw [this]
      exact h1
    · rw [hGS, riskFold_hasRequirement]
      exact h2
  · intro p hp
    by_cases hfil : GR.reqs.filter (fun r => r.project = pn ∧ r.index = p.1) = []
    · left
      rw [hGS, riskFold_reqs]
      exact hfil
    · right
      obtain ⟨h1, h2⟩ := riskFold_mem pn (enumerate1 rks) GR hpGR p hp hfil
      rw [← hGS] at h1 h2
      refine ⟨h1, ?_⟩
      rw [hGS, riskFold_reqs, ← hGS]
      exact h2

theorem save_reqs_mono (reqs rks : List String) (pn kw : String) (t : Nat) (g : Graph)
    {n : ReqNode} (h : n ∈ g.reqs) : n ∈ (save_to_neo4j reqs rks pn kw t g).reqs := by
  unfold save_to_neo4j
  rw [riskFold_reqs]
  exact reqFold_reqs_mono pn (enumerate1 reqs) _ (by rw [mergeProject_reqs]; exact h)

theorem mem_enumerate1From {α : Type} :
    ∀ (l : List α) (k i : Nat) (h : i < l.length), (k + i, l[i]) ∈ enumerate1From k l := by
  intro l
  induction l with
  | nil => intro k i h; simp at h
  | cons a as ih =>
    intro k i h
    match i with
    | 0 => simp [enumerate1From]
    | i + 1 =>
      have := ih (k + 1) i (by simpa using h)
      rw [enumerate1From]
      refine List.mem_cons_of_mem _ ?_
      have harith : k + 1 + i = k + (i + 1) := by omega
      rw [harith] at this
      simpa using this

theorem mem_enumerate1 {α : Type} (l : List α) (i : Nat) (h : i < l.length) :
    (i + 1, l[i]) ∈ enumerate1 l := by
  have := mem_enumerate1From l 1 i h
  rw [show 1 + i = i + 1 by omega] at this
  exact this


/-- C1 counterexample: after a save, a regeneration that changes the
description at index 2, and a second save, the graph holds **two**
`Requirement` nodes with the natural key `("P", 3)` — the old description
is not overwritten, refuting "at most one Requirement node per
(projectName, index)". -/
theorem c1_counterexample :
    (c1G2.reqs.filter (fun n => n.project = "P" ∧ n.index = 3)).length = 2 ∧
    c1G2.reqs.filter (fun n => n.project = "P" ∧ n.index = 3) =
      [⟨"r3", "P", 3⟩, ⟨"X9", "P", 3⟩] := by
  constructor
  · rfl
  · rfl

/-- C1 (amended): `Requirement`/`Risk` nodes are merged on the full
property triple (description, project, index).  Re-saving unchanged state
is idempotent — requirement nodes, risk nodes and both edge lists are
unchanged and no project node is added (only the project's `updated_at` is
refreshed).  But a save after a regeneration that changed the description
at index `i` *adds a second* requirement node with the same
`(projectName, i+1)` natural key next to the old one instead of
overwriting it. -/
theorem c1_amended_save_merge (pn kw : String) (reqs rks : List String)
    (t t' : Nat) (g : Graph) :
    ((save_to_neo4j reqs rks pn kw t' (save_to_neo4j reqs rks pn kw t g)).reqs =
        (save_to_neo4j reqs rks pn kw t g).reqs ∧
      (save_to_neo4j reqs rks pn kw t' (save_to_neo4j reqs rks pn kw t g)).risks =
        (save_to_neo4j reqs rks pn kw t g).risks ∧
      (save_to_neo4j reqs rks pn kw t'
          (save_to_neo4j reqs rks pn kw t g)).hasRequirement =
        (save_to_neo4j reqs rks pn kw t g).hasRequirement ∧
      (save_to_neo4j reqs rks pn kw t' (save_to_neo4j reqs rks pn kw t g)).hasRisk =
        (save_to_neo4j reqs rks pn kw t g).hasRisk ∧
      (save_to_neo4j reqs rks pn kw t'
          (save_to_neo4j reqs rks pn kw t g)).projects.length =
        (save_to_neo4j reqs rks pn kw t g).projects.length) ∧
    (∀ (i : Nat) (hi : i < reqs.length) (d' : String), d' ≠ reqs[i] →
      ReqNode.mk reqs[i] pn (i + 1) ∈
        (save_to_neo4j (reqs.set i d') rks pn kw t'
          (save_to_neo4j reqs rks pn kw t g)).reqs ∧
      ReqNode.mk d' pn (i + 1) ∈
        (save_to_neo4j (reqs.set i d') rks pn kw t'
          (save_to_neo4j reqs rks pn kw t g)).reqs) := by
  obtain ⟨hproj1, hpres1, hreqmem1, hriskmem1⟩ := save_components reqs rks pn kw t g
  set g1 := save_to_neo4j reqs rks pn kw t g with hg1
  constructor
  · have hM2pres : (mergeProject g1 pn kw t').projects.any (·.name = pn) = true :=
      mergeProject_present g1 pn kw t'
    have hRF : (enumerate1 reqs).foldl (fun g p => saveReqStep pn g p.1 p.2)
        (mergeProject g1 pn kw t') = mergeProject g1 pn kw t' := by
      refine reqFold_noop pn (enumerate1 reqs) _ hM2pres ?_
      intro p hp
      obtain ⟨h1, h2⟩ := hreqmem1 p hp
      rw [mergeProject_reqs, mergeProject_hasRequirement]
      exact ⟨h1, h2⟩
    have hSF : (enumerate1 rks).foldl (fun g p => saveRiskStep pn g p.1 p.2)
        (mergeProject g1 pn kw t') = mergeProject g1 pn kw t' := by
      refine riskFold_noop pn (enumerate1 rks) _ hM2pres ?_
      intro p hp
      rw [mergeProject_reqs, mergeProject_risks, mergeProject_hasRisk]
      exact hriskmem1 p hp
    have hsave2 : save_to_neo4j reqs rks pn kw t' g1 = mergeProject g1 pn kw t' := by
      unfold save_to_neo4j
      simp only []
      rw [hRF, hSF]
    rw [hsave2, mergeProject_reqs, mergeProject_risks, mergeProject_hasRequirement,
      mergeProject_hasRisk, mergeProject_length_present g1 pn kw t' hpres1]
    exact ⟨rfl, rfl, rfl, rfl, rfl⟩
  · intro i hi d' _hne
    constructor
    · exact save_reqs_mono (reqs.set i d') rks pn kw t' g1
        ((hreqmem1 (i + 1, reqs.get ⟨i, hi⟩) (mem_enumerate1 reqs i hi)).1)
    · obtain ⟨_, _, hreqmem2, _⟩ := save_components (reqs.set i d') rks pn kw t' g1
      have hp2 : (i + 1, (reqs.set i d').get ⟨i, by rw [List.length_set]; exact hi⟩) ∈
          enumerate1 (reqs.set i d') :=
        mem_enumerate1 (reqs.set i d') i (by rw [List.length_set]; exact hi)
      have hmem := (hreqmem2 _ hp2).1
      simpa using hmem

/-- Witness for C1 (amended) at a concrete project and node lists. -/
theorem c1_amended_save_merge_witness :
    ReqNode.mk "r3" "P" 3 ∈ c1G2.reqs ∧ ReqNode.mk "X9" "P" 3 ∈ c1G2.reqs ∧
    (save_to_neo4j c1Reqs c1Risks "P" "kw" 1 c1G1).reqs = c1G1.reqs := by
  obtain ⟨⟨hr, _, _, _, _⟩, hdup⟩ :=
    c1_amended_save_merge "P" "kw" c1Reqs c1Risks 0 1 emptyGraph
  obtain ⟨h1, h2⟩ := hdup 2 (by decide) "X9" (by decide)
  exact ⟨h1, h2, hr⟩


/-! ### Claim C6 -/

/-- C6 counterexample: the universally quantified round-trip fails when a
risk description is the empty string — `load-from-neo4j` drops falsy risk
descriptions, so the loaded risks list has only 4 entries and is no longer
aligned with the requirements. -/
theorem c6_counterexample :
    load_project_from_neo4j
      (save_to_neo4j ["r1", "r2", "r3", "r4", "r5"] ["k1", "", "k3", "k4", "k5"]
        "P" "kw" 0 emptyGraph) "P" =
      some (["r1", "r2", "r3", "r4", "r5"], ["k1", "k3", "k4", "k5"]) ∧
    load_project_from_neo4j
      (save_to_neo4j ["r1", "r2", "r3", "r4", "r5"] ["k1", "", "k3", "k4", "k5"]
        "P" "kw" 0 emptyGraph) "P" ≠
      some (["r1", "r2", "r3", "r4", "r5"], ["k1", "", "k3", "k4", "k5"]) := by
  constructor
  · rfl
  · decide

/-- C6 (amended): for a session with exactly 5 requirements and 5 aligned
risks whose descriptions are all non-empty, `save` into an empty graph
followed by `load-from-neo4j` reproduces the same requirements list in the
same order and the same risks list aligned to the same positions. -/
theorem c6_round_trip (pn kw r1 r2 r3 r4 r5 k1 k2 k3 k4 k5 : String) (t : Nat)
    (h1 : k1 ≠ "") (h2 : k2 ≠ "") (h3 : k3 ≠ "") (h4 : k4 ≠ "") (h5 : k5 ≠ "") :
    load_project_from_neo4j
      (save_to_neo4j [r1, r2, r3, r4, r5] [k1, k2, k3, k4, k5] pn kw t emptyGraph) pn =
    some ([r1, r2, r3, r4, r5], [k1, k2, k3, k4, k5]) := by
  have hM : mergeProject emptyGraph pn kw t = ⟨[⟨pn, kw, t⟩], [], [], [], []⟩ := by
    simp [mergeProject, emptyGraph]
  have hA1 : saveReqStep pn ⟨[⟨pn, kw, t⟩], [], [], [], []⟩ 1 r1 = ⟨[⟨pn, kw, t⟩], [⟨r1, pn, 1⟩], [], [(pn, ⟨r1, pn, 1⟩)], []⟩ := by
    simp [saveReqStep]
  have hA2 : saveReqStep pn ⟨[⟨pn, kw, t⟩], [⟨r1, pn, 1⟩], [], [(pn, ⟨r1, pn, 1⟩)], []⟩ 2 r2 = ⟨[⟨pn, kw, t⟩], [⟨r1, pn, 1⟩, ⟨r2, pn, 2⟩], [], [(pn, ⟨r1, pn, 1⟩), (pn, ⟨r2, pn, 2⟩)], []⟩ := by
    simp [saveReqStep]
  have hA3 : saveReqStep pn ⟨[⟨pn, kw, t⟩], [⟨r1, pn, 1⟩, ⟨r2, pn, 2⟩], [], [(pn, ⟨r1, pn, 1⟩), (pn, ⟨r2, pn, 2⟩)], []⟩ 3 r3 = ⟨[⟨pn, kw, t⟩], [⟨r1, pn, 1⟩, ⟨r2, pn, 2⟩, ⟨r3, pn, 3⟩], [], [(pn, ⟨r1, pn, 1⟩), (pn, ⟨r2, pn, 2⟩), (pn, ⟨r3, pn, 3⟩)], []⟩ := by
    simp [saveReqStep]
  have hA4 : saveReqStep pn ⟨[⟨pn, kw, t⟩], [⟨r1, pn, 1⟩, ⟨r2, pn, 2⟩, ⟨r3, pn, 3⟩], [], [(pn, ⟨r1, pn, 1⟩), (pn, ⟨r2, pn, 2⟩), (pn, ⟨r3, pn, 3⟩)], []⟩ 4 r4 = ⟨[⟨pn, kw, t⟩], [⟨r1, pn, 1⟩, ⟨r2, pn, 2⟩, ⟨r3, pn, 3⟩, ⟨r4, pn, 4⟩], [], [(pn, ⟨r1, pn, 1⟩), (pn, ⟨r2, pn, 2⟩), (pn, ⟨r3, pn, 3⟩), (pn, ⟨r4, pn, 4⟩)], []⟩ := by
    simp [saveReqStep]
  have hA5 : saveReqStep pn ⟨[⟨pn, kw, t⟩], [⟨r1, pn, 1⟩, ⟨r2, pn, 2⟩, ⟨r3, pn, 3⟩, ⟨r4, pn, 4⟩], [], [(pn, ⟨r1, pn, 1⟩), (pn, ⟨r2, pn, 2⟩), (pn, ⟨r3, pn, 3⟩), (pn, ⟨r4, pn, 4⟩)], []⟩ 5 r5 = ⟨[⟨pn, kw, t⟩], [⟨r1, pn, 1⟩, ⟨r2, pn, 2⟩, ⟨r3, pn, 3⟩, ⟨r4, pn, 4⟩, ⟨r5, pn, 5⟩], [], [(pn, ⟨r1, pn, 1⟩), (pn, ⟨r2, pn, 2⟩), (pn, ⟨r3, pn, 3⟩), (pn, ⟨r4, pn, 4⟩), (pn, ⟨r5, pn, 5⟩)], []⟩ := by
    simp [saveReqStep]
  have hB1 : saveRiskStep pn ⟨[⟨pn, kw, t⟩], [⟨r1, pn, 1⟩, ⟨r2, pn, 2⟩, ⟨r3, pn, 3⟩, ⟨r4, pn, 4⟩, ⟨r5, pn, 5⟩], [], [(pn, ⟨r1, pn, 1⟩), (pn, ⟨r2, pn, 2⟩), (pn, ⟨r3, pn, 3⟩), (pn, ⟨r4, pn, 4⟩), (pn, ⟨r5, pn, 5⟩)], []⟩ 1 k1 =
      ⟨[⟨pn, kw, t⟩], [⟨r1, pn, 1⟩, ⟨r2, pn, 2⟩, ⟨r3, pn, 3⟩, ⟨r4, pn, 4⟩, ⟨r5, pn, 5⟩], [⟨k1, pn, 1⟩], [(pn, ⟨r1, pn, 1⟩), (pn, ⟨r2, pn, 2⟩), (pn, ⟨r3, pn, 3⟩), (pn, ⟨r4, pn, 4⟩), (pn, ⟨r5, pn, 5⟩)], [(⟨r1, pn, 1⟩, ⟨k1, pn, 1⟩)]⟩ := by
    simp [saveRiskStep]
  have hB2 : saveRiskStep pn ⟨[⟨pn, kw, t⟩], [⟨r1, pn, 1⟩, ⟨r2, pn, 2⟩, ⟨r3, pn, 3⟩, ⟨r4, pn, 4⟩, ⟨r5, pn, 5⟩], [⟨k1, pn, 1⟩], [(pn, ⟨r1, pn, 1⟩), (pn, ⟨r2, pn, 2⟩), (pn, ⟨r3, pn, 3⟩), (pn, ⟨r4, pn, 4⟩), (pn, ⟨r5, pn, 5⟩)], [(⟨r1, pn, 1⟩, ⟨k1, pn, 1⟩)]⟩ 2 k2 =
      ⟨[⟨pn, kw, t⟩], [⟨r1, pn, 1⟩, ⟨r2, pn, 2⟩, ⟨r3, pn, 3⟩, ⟨r4, pn, 4⟩, ⟨r5, pn, 5⟩], [⟨k1, pn, 1⟩, ⟨k2, pn, 2⟩], [(pn, ⟨r1, pn, 1⟩), (pn, ⟨r2, pn, 2⟩), (pn, ⟨r3, pn, 3⟩), (pn, ⟨r4, pn, 4⟩), (pn, ⟨r5, pn, 5⟩)], [(⟨r1, pn, 1⟩, ⟨k1, pn, 1⟩), (⟨r2, pn, 2⟩, ⟨k2, pn, 2⟩)]⟩ := by
    simp [saveRiskStep]
  have hB3 : saveRiskStep pn ⟨[⟨pn, kw, t⟩], [⟨r1, pn, 1⟩, ⟨r2, pn, 2⟩, ⟨r3, pn, 3⟩, ⟨r4, pn, 4⟩, ⟨r5, pn, 5⟩], [⟨k1, pn, 1⟩, ⟨k2, pn, 2⟩], [(pn, ⟨r1, pn, 1⟩), (pn, ⟨r2, pn, 2⟩), (pn, ⟨r3, pn, 3⟩), (pn, ⟨r4, pn, 4⟩), (pn, ⟨r5, pn, 5⟩)], [(⟨r1, pn, 1⟩, ⟨k1, pn, 1⟩), (⟨r2, pn, 2⟩, ⟨k2, pn, 2⟩)]⟩ 3 k3 =
      ⟨[⟨pn, kw, t⟩], [⟨r1, pn, 1⟩, ⟨r2, pn, 2⟩, ⟨r3, pn, 3⟩, ⟨r4, pn, 4⟩, ⟨r5, pn, 5⟩], [⟨k1, pn, 1⟩, ⟨k2, pn, 2⟩, ⟨k3, pn, 3⟩], [(pn, ⟨r1, pn, 1⟩), (pn, ⟨r2, pn, 2⟩), (pn, ⟨r3, pn, 3⟩), (pn, ⟨r4, pn, 4⟩), (pn, ⟨r5, pn, 5⟩)], [(⟨r1, pn, 1⟩, ⟨k1, pn, 1⟩), (⟨r2, pn, 2⟩, ⟨k2, pn, 2⟩), (⟨r3, pn, 3⟩, ⟨k3, pn, 3⟩)]⟩ := by
    simp [saveRiskStep]
  have hB4 : saveRiskStep pn ⟨[⟨pn, kw, t⟩], [⟨r1, pn, 1⟩, ⟨r2, pn, 2⟩, ⟨r3, pn, 3⟩, ⟨r4, pn, 4⟩, ⟨r5, pn, 5⟩], [⟨k1, pn, 1⟩, ⟨k2, pn, 2⟩, ⟨k3, pn, 3⟩], [(pn, ⟨r1, pn, 1⟩), (pn, ⟨r2, pn, 2⟩), (pn, ⟨r3, pn, 3⟩), (pn, ⟨r4, pn, 4⟩), (pn, ⟨r5, pn, 5⟩)], [(⟨r1, pn, 1⟩, ⟨k1, pn, 1⟩), (⟨r2, pn, 2⟩, ⟨k2, pn, 2⟩), (⟨r3, pn, 3⟩, ⟨k3, pn, 3⟩)]⟩ 4 k4 =
      ⟨[⟨pn, kw, t⟩], [⟨r1, pn, 1⟩, ⟨r2, pn, 2⟩, ⟨r3, pn, 3⟩, ⟨r4, pn, 4⟩, ⟨r5, pn, 5⟩], [⟨k1, pn, 1⟩, ⟨k2, pn, 2⟩, ⟨k3, pn, 3⟩, ⟨k4, pn, 4⟩], [(pn, ⟨r1, pn, 1⟩), (pn, ⟨r2, pn, 2⟩), (pn, ⟨r3, pn, 3⟩), (pn, ⟨r4, pn, 4⟩), (pn, ⟨r5, pn, 5⟩)], [(⟨r1, pn, 1⟩, ⟨k1, pn, 1⟩), (⟨r2, pn, 2⟩, ⟨k2, pn, 2⟩), (⟨r3, pn, 3⟩, ⟨k3, pn, 3⟩), (⟨r4, pn, 4⟩, ⟨k4, pn, 4⟩)]⟩ := by
    simp [saveRiskStep]
  have hB5 : saveRiskStep pn ⟨[⟨pn, kw, t⟩], [⟨r1, pn, 1⟩, ⟨r2, pn, 2⟩, ⟨r3, pn, 3⟩, ⟨r4, pn, 4⟩, ⟨r5, pn, 5⟩], [⟨k1, pn, 1⟩, ⟨k2, pn, 2⟩, ⟨k3, pn, 3⟩, ⟨k4, pn, 4⟩], [(pn, ⟨r1, pn, 1⟩), (pn, ⟨r2, pn, 2⟩), (pn, ⟨r3, pn, 3⟩), (pn, ⟨r4, pn, 4⟩), (pn, ⟨r5, pn, 5⟩)], [(⟨r1, pn, 1⟩, ⟨k1, pn, 1⟩), (⟨r2, pn, 2⟩, ⟨k2, pn, 2⟩), (⟨r3, pn, 3⟩, ⟨k3, pn, 3⟩), (⟨r4, pn, 4⟩, ⟨k4, pn, 4⟩)]⟩ 5 k5 =
      ⟨[⟨pn, kw, t⟩], [⟨r1, pn, 1⟩, ⟨r2, pn, 2⟩, ⟨r3, pn, 3⟩, ⟨r4, pn, 4⟩, ⟨r5, pn, 5⟩], [⟨k1, pn, 1⟩, ⟨k2, pn, 2⟩, ⟨k3, pn, 3⟩, ⟨k4, pn, 4⟩, ⟨k5, pn, 5⟩], [(pn, ⟨r1, pn, 1⟩), (pn, ⟨r2, pn, 2⟩), (pn, ⟨r3, pn, 3⟩), (pn, ⟨r4, pn, 4⟩), (pn, ⟨r5, pn, 5⟩)], [(⟨r1, pn, 1⟩, ⟨k1, pn, 1⟩), (⟨r2, pn, 2⟩, ⟨k2, pn, 2⟩), (⟨r3, pn, 3⟩, ⟨k3, pn, 3⟩), (⟨r4, pn, 4⟩, ⟨k4, pn, 4⟩), (⟨r5, pn, 5⟩, ⟨k5, pn, 5⟩)]⟩ := by
    simp [saveRiskStep]
  have hsave : save_to_neo4j [r1, r2, r3, r4, r5] [k1, k2, k3, k4, k5] pn kw t emptyGraph =
      ⟨[⟨pn, kw, t⟩], [⟨r1, pn, 1⟩, ⟨r2, pn, 2⟩, ⟨r3, pn, 3⟩, ⟨r4, pn, 4⟩, ⟨r5, pn, 5⟩], [⟨k1, pn, 1⟩, ⟨k2, pn, 2⟩, ⟨k3, pn, 3⟩, ⟨k4, pn, 4⟩, ⟨k5, pn, 5⟩], [(pn, ⟨r1, pn, 1⟩), (pn, ⟨r2, pn, 2⟩), (pn, ⟨r3, pn, 3⟩), (pn, ⟨r4, pn, 4⟩), (pn, ⟨r5, pn, 5⟩)], [(⟨r1, pn, 1⟩, ⟨k1, pn, 1⟩), (⟨r2, pn, 2⟩, ⟨k2, pn, 2⟩), (⟨r3, pn, 3⟩, ⟨k3, pn, 3⟩), (⟨r4, pn, 4⟩, ⟨k4, pn, 4⟩), (⟨r5, pn, 5⟩, ⟨k5, pn, 5⟩)]⟩ := by
    unfold save_to_neo4j
    simp only [enumerate1, enumerate1From, Nat.reduceAdd, List.foldl_cons, List.foldl_nil]
    rw [hM, hA1, hA2, hA3, hA4, hA5, hB1, hB2, hB3, hB4, hB5]
  have hrows : loadRows (⟨[⟨pn, kw, t⟩], [⟨r1, pn, 1⟩, ⟨r2, pn, 2⟩, ⟨r3, pn, 3⟩, ⟨r4, pn, 4⟩, ⟨r5, pn, 5⟩], [⟨k1, pn, 1⟩, ⟨k2, pn, 2⟩, ⟨k3, pn, 3⟩, ⟨k4, pn, 4⟩, ⟨k5, pn, 5⟩], [(pn, ⟨r1, pn, 1⟩), (pn, ⟨r2, pn, 2⟩), (pn, ⟨r3, pn, 3⟩), (pn, ⟨r4, pn, 4⟩), (pn, ⟨r5, pn, 5⟩)], [(⟨r1, pn, 1⟩, ⟨k1, pn, 1⟩), (⟨r2, pn, 2⟩, ⟨k2, pn, 2⟩), (⟨r3, pn, 3⟩, ⟨k3, pn, 3⟩), (⟨r4, pn, 4⟩, ⟨k4, pn, 4⟩), (⟨r5, pn, 5⟩, ⟨k5, pn, 5⟩)]⟩ : Graph) pn = [((1 : Nat), r1, some ((1 : Nat), k1)), ((2 : Nat), r2, some ((2 : Nat), k2)), ((3 : Nat), r3, some ((3 : Nat), k3)), ((4 : Nat), r4, some ((4 : Nat), k4)), ((5 : Nat), r5, some ((5 : Nat), k5))] := by
    simp [loadRows]
  have hsorted : insertionSortLe rowLe [((1 : Nat), r1, some ((1 : Nat), k1)), ((2 : Nat), r2, some ((2 : Nat), k2)), ((3 : Nat), r3, some ((3 : Nat), k3)), ((4 : Nat), r4, some ((4 : Nat), k4)), ((5 : Nat), r5, some ((5 : Nat), k5))] = [((1 : Nat), r1, some ((1 : Nat), k1)), ((2 : Nat), r2, some ((2 : Nat), k2)), ((3 : Nat), r3, some ((3 : Nat), k3)), ((4 : Nat), r4, some ((4 : Nat), k4)), ((5 : Nat), r5, some ((5 : Nat), k5))] := by
    simp [insertionSortLe, insertLe, rowLe]
  rw [hsave]
  unfold load_project_from_neo4j
  rw [hrows, hsorted]
  simp [insertionSortLe, insertLe, h1, h2, h3, h4, h5]

/-- Witness for C6 at concrete lists. -/
theorem c6_round_trip_witness :
    load_project_from_neo4j
      (save_to_neo4j ["wr1", "wr2", "wr3", "wr4", "wr5"]
        ["wk1", "wk2", "wk3", "wk4", "wk5"] "WP" "kw" 0 emptyGraph) "WP" =
    some (["wr1", "wr2", "wr3", "wr4", "wr5"], ["wk1", "wk2", "wk3", "wk4", "wk5"]) :=
  c6_round_trip "WP" "kw" "wr1" "wr2" "wr3" "wr4" "wr5"
    "wk1" "wk2" "wk3" "wk4" "wk5" 0
    (by decide) (by decide) (by decide) (by decide) (by decide)

end CoherencePLM
